import Mathlib

/-!
# sxmc `plots.cpp`: an embedding of `SpectralPlot` and `plot_fit`

The C++ of `src/plots.cpp` is rendered as pure functions over explicit state.

* `float` / `double` inputs (point estimates, data values, axis bounds) are
  rationals, and arithmetic on them is exact: rounding and overflow are not
  represented.  Histogram cells and the quantities computed from them are
  `Val`: a rational, or one of the infinities or the NaN that a division by
  zero produces in C++ without trapping.
* Behaviour that C++ leaves undefined (dereferencing `NULL`, indexing a
  `std::vector` past its end, integer division by zero, converting a `float`
  outside the range of `unsigned`) and the failing `assert(false)` end the run
  with a `Fault`.
* A `std::map` that is only accessed through `operator[]` is a total function
  from keys to values whose default is the value-initialised element.
* ROOT histograms keep their in-range cells only (no under/overflow cells) and
  `Integral()` sums all of them; canvas rendering is reduced to the list of
  draw options.
* The copy constructor and the destructor of `SpectralPlot` (lines 56-87) only
  manage object ownership and have no counterpart here.
-/

namespace Sxmc

/-! ## Faults -/

/-- Ways in which a run of `plot_fit` ends without completing. -/
inductive Fault
  | dimensionality
  | nullDeref
  | outOfRange
  | divByZero
  | conversion
  deriving DecidableEq, Repr

instance instDecidableEqExcept {ε α : Type} [DecidableEq ε] [DecidableEq α] :
    DecidableEq (Except ε α)
  | .ok a, .ok b =>
    if h : a = b then isTrue (congrArg Except.ok h)
    else isFalse (fun h' => h (Except.ok.inj h'))
  | .error a, .error b =>
    if h : a = b then isTrue (congrArg Except.error h)
    else isFalse (fun h' => h (Except.error.inj h'))
  | .ok _, .error _ => isFalse (fun h => Except.noConfusion h)
  | .error _, .ok _ => isFalse (fun h => Except.noConfusion h)

/-! ## Palette (lines 24-30) -/

def kWhite : Int := 0
def kBlack : Int := 1
def kGreen : Int := 416
def kBlue : Int := 600
def kMagenta : Int := 616
def kRed : Int := 632

def ncolors : Nat := 6

def colors : List Int := [kRed, kRed, kBlack, kBlack, kBlue, kGreen + 1]

def styles : List Int := [1, 2, 1, 2, 3, 1]

/-! ## Values of type `double` -/

/-- A `double` as far as this file follows it: an exact rational, or one of
the three values a division by zero can produce.  The sign of zero is not
represented; a zero denominator counts as `+0`, which is what a sum of cells
or an event count gives. -/
inductive Val
  | fin (q : ℚ)
  | pinf
  | ninf
  | nan
  deriving DecidableEq

namespace Val

/-- Addition: `nan` absorbs, opposite infinities give `nan`. -/
def add : Val → Val → Val
  | fin a, fin b => fin (a + b)
  | nan, _ => nan
  | _, nan => nan
  | pinf, ninf => nan
  | ninf, pinf => nan
  | pinf, _ => pinf
  | _, pinf => pinf
  | ninf, _ => ninf
  | _, ninf => ninf

/-- Sign of a value: `1`, `0` or `-1`; `nan` has none. -/
def sign : Val → Option Int
  | fin q => some (if 0 < q then 1 else if q < 0 then -1 else 0)
  | pinf => some 1
  | ninf => some (-1)
  | nan => none

/-- The infinity of a non-zero sign, `nan` for the sign zero. -/
def ofSign (s : Int) : Val :=
  if 0 < s then pinf else if s < 0 then ninf else nan

/-- Multiplication: an infinity times zero is `nan`. -/
def mul : Val → Val → Val
  | fin a, fin b => fin (a * b)
  | a, b =>
    match a.sign, b.sign with
    | some s, some t => ofSign (s * t)
    | _, _ => nan

/-- Division: `x / 0` is an infinity of the sign of `x`, and `0 / 0` is `nan`. -/
def div : Val → Val → Val
  | fin a, fin b =>
    if b = 0 then ofSign (if 0 < a then 1 else if a < 0 then -1 else 0) else fin (a / b)
  | fin _, pinf => fin 0
  | fin _, ninf => fin 0
  | pinf, fin b => if b < 0 then ninf else pinf
  | ninf, fin b => if b < 0 then pinf else ninf
  | _, _ => nan

/-- The comparison `a < b`, false when either side is `nan`. -/
def lt : Val → Val → Bool
  | fin a, fin b => decide (a < b)
  | ninf, fin _ => true
  | ninf, pinf => true
  | fin _, pinf => true
  | _, _ => false

instance : Add Val := ⟨add⟩

instance : Zero Val := ⟨fin 0⟩

instance : AddCommMonoid Val where
  add_assoc := by
    intro a b c
    cases a <;> cases b <;> cases c <;>
      first | rfl | exact congrArg fin (add_assoc _ _ _)
  zero_add := by
    intro a
    cases a <;> first | rfl | exact congrArg fin (zero_add _)
  add_zero := by
    intro a
    cases a <;> first | rfl | exact congrArg fin (add_zero _)
  add_comm := by
    intro a b
    cases a <;> cases b <;> first | rfl | exact congrArg fin (add_comm _ _)
  nsmul := nsmulRec

instance : Mul Val := ⟨mul⟩

instance : Div Val := ⟨div⟩

instance : One Val := ⟨fin 1⟩

instance : LT Val := ⟨fun a b => lt a b = true⟩

instance (a b : Val) : Decidable (a < b) := inferInstanceAs (Decidable (lt a b = true))

instance (n : Nat) [n.AtLeastTwo] : OfNat Val n := ⟨fin (OfNat.ofNat n)⟩

instance : Neg Val := ⟨fun
  | fin q => fin (-q)
  | pinf => ninf
  | ninf => pinf
  | nan => nan⟩

/-- Whether the value is a rational. -/
def isFin : Val → Bool
  | fin _ => true
  | _ => false

/-- Whether the value is a rational that is not negative. -/
def nonneg : Val → Bool
  | fin q => decide (0 ≤ q)
  | _ => false

/-- The rational of a finite value (zero for the others). -/
def toRat : Val → ℚ
  | fin q => q
  | _ => 0

end Val

/-! ## Histograms -/

/-- Cell contents of a histogram by runtime class: `TH1D`, `TH2D` (cells
`[x][y]`), `TH3D` (cells `[x][y][z]`), or an object of more than three
dimensions (`dn k` has dimension `k + 4`, cells flattened). -/
inductive Contents
  | d1 (bins : List Val)
  | d2 (bins : List (List Val))
  | d3 (bins : List (List (List Val)))
  | dn (extra : Nat) (bins : List Val)
  deriving DecidableEq

/-- A ROOT histogram object with the attributes `plots.cpp` reads or writes.
`axes` holds `(low, up)` per dimension. -/
structure TH1 where
  name : String
  title : String
  xtitle : String
  ytitle : String
  lineWidth : Int
  lineColor : Int
  lineStyle : Int
  markerStyle : Int
  markerSize : ℚ
  axes : List (ℚ × ℚ)
  xrange : Option (ℚ × ℚ)
  yrange : Option (ℚ × ℚ)
  entries : Nat
  contents : Contents
  deriving DecidableEq

def Contents.dim : Contents → Nat
  | .d1 _ => 1
  | .d2 _ => 2
  | .d3 _ => 3
  | .dn k _ => k + 4

/-- Sum of all cells: `TH1::Integral()`. -/
def Contents.integral : Contents → Val
  | .d1 b => b.sum
  | .d2 b => (b.map List.sum).sum
  | .d3 b => (b.map (fun p => (p.map List.sum).sum)).sum
  | .dn _ b => b.sum

/-- Every cell multiplied by `c`: `TH1::Scale(c)`. -/
def Contents.scale (c : Val) : Contents → Contents
  | .d1 b => .d1 (b.map (c * ·))
  | .d2 b => .d2 (b.map (fun r => r.map (c * ·)))
  | .d3 b => .d3 (b.map (fun p => p.map (fun r => r.map (c * ·))))
  | .dn k b => .dn k (b.map (c * ·))

/-- Cell-wise addition of a histogram of the same class: `TH1::Add(h)`. -/
def Contents.add : Contents → Contents → Contents
  | .d1 a, .d1 b => .d1 (List.zipWith (· + ·) a b)
  | .d2 a, .d2 b => .d2 (List.zipWith (List.zipWith (· + ·)) a b)
  | .d3 a, .d3 b => .d3 (List.zipWith (List.zipWith (List.zipWith (· + ·))) a b)
  | .dn k a, .dn _ b => .dn k (List.zipWith (· + ·) a b)
  | a, _ => a

/-- All cells set to zero: the contents part of `TH1::Reset()`. -/
def Contents.reset : Contents → Contents
  | .d1 b => .d1 (b.map (fun _ => 0))
  | .d2 b => .d2 (b.map (fun r => r.map (fun _ => 0)))
  | .d3 b => .d3 (b.map (fun p => p.map (fun r => r.map (fun _ => 0))))
  | .dn k b => .dn k (b.map (fun _ => 0))

namespace TH1

def integral (h : TH1) : Val := h.contents.integral

def dim (h : TH1) : Nat := h.contents.dim

def scale (h : TH1) (c : Val) : TH1 := { h with contents := h.contents.scale c }

def add (h g : TH1) : TH1 :=
  { h with contents := h.contents.add g.contents, entries := h.entries + g.entries }

/-- Copy under a new name: `h->Clone(name)`. -/
def clone (h : TH1) (name : String) : TH1 := { h with name := name }

def reset (h : TH1) : TH1 := { h with contents := h.contents.reset, entries := 0 }

/-- Cells of a one-dimensional histogram (empty for the other classes). -/
def bins (h : TH1) : List Val :=
  match h.contents with
  | .d1 b => b
  | _ => []

/-- Index of the cell holding `x` on the first axis, when `x` is in range:
`TAxis::FindBin` less one. -/
def findBin (h : TH1) (x : ℚ) : Option Nat :=
  match h.axes, h.contents with
  | (lo, up) :: _, .d1 b =>
    if lo ≤ x ∧ x < up then
      some (Int.toNat ⌊(b.length : ℚ) * (x - lo) / (up - lo)⌋)
    else none
  | _, _ => none

/-- One-argument `TH1::Fill(x)`: one more entry, and one more count in the cell
holding `x` when there is one. -/
def fill (h : TH1) (x : ℚ) : TH1 :=
  match h.findBin x, h.contents with
  | some k, .d1 b =>
    { h with entries := h.entries + 1, contents := .d1 (b.modify (· + 1) k) }
  | _, _ => { h with entries := h.entries + 1 }

/-- Cells of `ProjectionX`. -/
def projX : Contents → List Val
  | .d1 b => b
  | .d2 b => b.map List.sum
  | .d3 b => b.map (fun p => (p.map List.sum).sum)
  | .dn _ _ => []

/-- Cells of `ProjectionY`. -/
def projY : Contents → List Val
  | .d2 b =>
    (List.range (b.headD []).length).map
      (fun y => (b.map (fun r => r.getD y 0)).sum)
  | .d3 b =>
    (List.range (b.headD []).length).map
      (fun y => (b.map (fun p => (p.getD y []).sum)).sum)
  | _ => []

/-- Cells of `ProjectionZ`. -/
def projZ : Contents → List Val
  | .d3 b =>
    (List.range ((b.headD []).headD []).length).map
      (fun z => (b.map (fun p => (p.map (fun r => r.getD z 0)).sum)).sum)
  | _ => []

/-- The `TH1D` made by `ProjectionX(name)`. -/
def ProjectionX (h : TH1) (name : String) : TH1 :=
  { h with name := name, contents := .d1 (projX h.contents), axes := h.axes.take 1 }

/-- The `TH1D` made by `ProjectionY(name)`. -/
def ProjectionY (h : TH1) (name : String) : TH1 :=
  { h with name := name, contents := .d1 (projY h.contents), axes := (h.axes.drop 1).take 1 }

/-- The `TH1D` made by `ProjectionZ(name)`. -/
def ProjectionZ (h : TH1) (name : String) : TH1 :=
  { h with name := name, contents := .d1 (projZ h.contents), axes := (h.axes.drop 2).take 1 }

end TH1

/-! ## `SpectralPlot` (lines 33-148) -/

/-- State of a `SpectralPlot`: its configuration, the drawn histograms, the
legend entries `(object name, label)` and the options of each `DrawClone`. -/
structure SpectralPlot where
  logy : Bool
  line_width : Int
  xmin : ℚ
  xmax : ℚ
  ymin : ℚ
  ymax : ℚ
  title : String
  xtitle : String
  ytitle : String
  histograms : List TH1
  legend : List (String × String)
  canvas : List String
  deriving DecidableEq

namespace SpectralPlot

/-- Constructor (lines 33-53). -/
def new (_line_width : Int) (_xmin _xmax _ymin _ymax : ℚ) (_logy : Bool)
    (_title _xtitle _ytitle : String) : SpectralPlot :=
  { logy := _logy, line_width := _line_width,
    xmin := _xmin, xmax := _xmax, ymin := _ymin, ymax := _ymax,
    title := _title, xtitle := _xtitle, ytitle := _ytitle,
    histograms := [], legend := [], canvas := [] }

/-- The clone made and styled at lines 91-97. -/
def styled (p : SpectralPlot) (h0 : TH1) (objname : String) : TH1 :=
  { h0.clone ("__" ++ objname) with
    lineWidth := p.line_width, title := p.title,
    xtitle := p.xtitle, ytitle := p.ytitle }

/-- Axis ranges set on the first drawn histogram (lines 108-112). -/
def withRanges (p : SpectralPlot) (h : TH1) : TH1 :=
  let h1 : TH1 :=
    if ¬ (p.ymin = -1 ∧ p.ymax = -1) then { h with yrange := some (p.ymin, p.ymax) } else h
  { h1 with xrange := some (p.xmin, p.xmax) }

/-- `SpectralPlot::add` (lines 90-128).  A `NULL` argument is dereferenced by
`_h->Clone` before the `!h` test is reached. -/
def add (p : SpectralPlot) (_h : Option TH1) (objname title options : String) :
    Except Fault SpectralPlot :=
  match _h with
  | none => .error .nullDeref
  | some h0 =>
    let h := p.styled h0 objname
    let p1 := { p with legend := p.legend ++ [(h.name, title)] }
    if h.integral = 0 then .ok p1
    else if (p1.histograms ++ [h]).length = 1 then
      .ok { p1 with histograms := p1.histograms ++ [p.withRanges h],
                    canvas := p1.canvas ++ [options] }
    else
      .ok { p1 with histograms := p1.histograms ++ [h],
                    canvas := p1.canvas ++ ["same " ++ options] }

/-- Files written by `SpectralPlot::save` (lines 131-141). -/
def save (filename : String) : List String :=
  [filename ++ ".pdf", filename ++ ".png", filename ++ ".tex",
   filename ++ ".C", filename ++ ".root"]

/-- `SpectralPlot::make_like` (lines 144-148). -/
def make_like (h : TH1) (name : String) : TH1 := (h.clone name).reset

end SpectralPlot

/-! ## Inputs of `plot_fit` (line 151) -/

/-- Entry of the best-fit result; only `point_estimate` is read. -/
structure Interval where
  point_estimate : ℚ
  deriving DecidableEq

structure Source where
  name : String
  index : Nat
  deriving DecidableEq

structure Systematic where
  name : String
  npars : Nat
  deriving DecidableEq

structure Observable where
  name : String
  title : String
  units : String
  lower : ℚ
  upper : ℚ
  bins : Nat
  yrange0 : ℚ
  yrange1 : ℚ
  logscale : Bool
  deriving DecidableEq

/-- The evaluation object of a signal (`pdfz::EvalHist`, not part of this
file): from the parameter buffer and the number of sources it gives the
normalisation count it writes and the histogram of `CreateHistogram()`. -/
structure EvalHist where
  eval : List ℚ → Nat → Nat × TH1

structure Signal where
  name : String
  title : String
  nexpected : ℚ
  n_mc : Nat
  dataset : Nat
  source : Source
  histogram : EvalHist

/-- What the platform and the headers fix outside `plots.cpp`: the text a
stream prints for a number, the value-initialised `Interval` that
`std::map::operator[]` inserts for an absent key, and the default `options`
argument of `SpectralPlot::add`. -/
structure Env where
  fmt : ℚ → String
  defaultInterval : Interval
  addOptions : String

/-! ## Vector and map access -/

/-- Read `v[i]`; undefined past the end. -/
def readAt {α : Type} (v : List α) (i : Nat) : Except Fault α :=
  match v[i]? with
  | some x => .ok x
  | none => .error .outOfRange

/-- Store `v[i] = x`; undefined past the end. -/
def writeAt {α : Type} (v : List α) (i : Nat) (x : α) : Except Fault (List α) :=
  if i < v.length then .ok (v.set i x) else .error .outOfRange

/-- The integer part of a value above `-1`: truncation toward zero. -/
def truncField (x : ℚ) : Nat := Int.toNat ⌊x⌋

/-- Conversion of a `float` to `unsigned` (line 304): the value is truncated
toward zero; it is undefined when the truncated value is not an `unsigned`. -/
def toUnsigned (x : ℚ) : Except Fault Nat :=
  if -1 < x ∧ x < 2 ^ 32 then .ok (truncField x) else .error .conversion

/-- The map `m` after `m[k] = v`. -/
def mapSet {β : Type} (m : Nat → β) (k : Nat) (v : β) : Nat → β :=
  fun k' => if k' = k then v else m k'

/-- The value of `best_fit[key]`: the stored entry, or the value-initialised
one that `operator[]` inserts.  The map is given by the list of its entries
(distinct keys), so `best_fit.size()` is the length of the list. -/
def bestFitAt (env : Env) (best_fit : List (String × Interval)) (key : String) : Interval :=
  (best_fit.lookup key).getD env.defaultInterval

/-! ## Parameter vector (lines 190-210) -/

/-- Loop of lines 194-199, from index `i` on. -/
def sourceLoop (env : Env) (best_fit : List (String × Interval)) :
    List Source → Nat → List ℚ → Except Fault (List ℚ)
  | [], _, params => .ok params
  | s :: rest, i, params =>
    match writeAt params i (bestFitAt env best_fit s.name).point_estimate with
    | .error e => .error e
    | .ok params1 => sourceLoop env best_fit rest (i + 1) params1

/-- Key built at lines 204-205. -/
def systKey (name : String) (j : Nat) : String := name ++ "_" ++ toString j

/-- Inner loop of lines 203-209: `n` more values of `j`, from `j` on. -/
def parsLoop (env : Env) (best_fit : List (String × Interval)) (name : String) :
    Nat → Nat → Nat → List ℚ → Except Fault (Nat × List ℚ)
  | 0, _, idx, params => .ok (idx, params)
  | n + 1, j, idx, params =>
    match writeAt params idx (bestFitAt env best_fit (systKey name j)).point_estimate with
    | .error e => .error e
    | .ok params1 => parsLoop env best_fit name n (j + 1) (idx + 1) params1

/-- Outer loop of lines 202-210. -/
def systLoop (env : Env) (best_fit : List (String × Interval)) :
    List Systematic → Nat → List ℚ → Except Fault (List ℚ)
  | [], _, params => .ok params
  | s :: rest, idx, params =>
    match parsLoop env best_fit s.name s.npars 0 idx params with
    | .error e => .error e
    | .ok (idx1, params1) => systLoop env best_fit rest idx1 params1

/-- The vector `params` after lines 192-210. -/
def paramVector (env : Env) (best_fit : List (String × Interval))
    (sources : List Source) (systematics : List Systematic) : Except Fault (List ℚ) :=
  match sourceLoop env best_fit sources 0 (List.replicate best_fit.length 0) with
  | .error e => .error e
  | .ok params => systLoop env best_fit systematics sources.length params

/-! ## Signal loop (lines 220-288) -/

/-- Maps of `plot_fit`, the files saved and the objects written to `fpdfs`. -/
structure FitState where
  all_plots : Nat → List SpectralPlot
  all_totals : Nat → List (Option TH1)
  all_totals_nd : Nat → Option TH1
  files : List String
  fpdfs : List TH1

/-- The text of `ytitle` (lines 174-176). -/
def ytitleText (env : Env) (live_time : ℚ) (o : Observable) : String :=
  "Events/" ++ env.fmt ((o.upper - o.lower) / o.bins) ++ " " ++ o.units
    ++ "/" ++ env.fmt live_time ++ " y"

/-- The overlays of one dataset (lines 171-180). -/
def makePlots (env : Env) (live_time : ℚ) (observables : List Observable) :
    List SpectralPlot :=
  observables.map (fun o =>
    SpectralPlot.new 2 o.lower o.upper o.yrange0 o.yrange1 o.logscale "" o.title
      (ytitleText env live_time o))

/-- Loop of lines 163-183. -/
def setupLoop (env : Env) (live_time : ℚ) (observables : List Observable) :
    List Nat → FitState → FitState
  | [], st => st
  | dataset :: rest, st =>
    setupLoop env live_time observables rest
      { st with
        all_plots := mapSet st.all_plots dataset (makePlots env live_time observables),
        all_totals := mapSet st.all_totals dataset (List.replicate observables.length none) }

/-- State at line 159-161. -/
def initState : FitState :=
  { all_plots := fun _ => [], all_totals := fun _ => [], all_totals_nd := fun _ => none,
    files := [], fpdfs := [] }

/-- The histogram `hpdf_nd` after line 234, from the engine's count and model. -/
def scaledHist (sig : Signal) (params : List ℚ) (norm : Nat) (model : TH1) :
    Except Fault TH1 :=
  let eff : Val := Val.fin 1 * Val.fin (norm : ℚ) / Val.fin (sig.n_mc : ℚ)
  match readAt params sig.source.index with
  | .error e => .error e
  | .ok p =>
    let nexp : Val := Val.fin sig.nexpected * eff * Val.fin p
    .ok (model.scale (nexp / model.integral))

/-- The vector `hpdf` after lines 236-253. -/
def projections (hpdf_nd : TH1) (nobs : Nat) : Except Fault (List (Option TH1)) :=
  let hpdf : List (Option TH1) := List.replicate nobs none
  match hpdf_nd.contents with
  | .d1 _ => writeAt hpdf 0 (some hpdf_nd)
  | .d2 _ =>
    match writeAt hpdf 0 (some (hpdf_nd.ProjectionX "hpdf_x")) with
    | .error e => .error e
    | .ok hpdf1 => writeAt hpdf1 1 (some (hpdf_nd.ProjectionY "hpdf_y"))
  | .d3 _ =>
    match writeAt hpdf 0 (some (hpdf_nd.ProjectionX "hpdf_x")) with
    | .error e => .error e
    | .ok hpdf1 =>
      match writeAt hpdf1 1 (some (hpdf_nd.ProjectionY "hpdf_y")) with
      | .error e => .error e
      | .ok hpdf2 => writeAt hpdf2 2 (some (hpdf_nd.ProjectionZ "hpdf_z"))
  | .dn _ _ => .error .dimensionality

/-- The index `ii % ncolors` of lines 257-260; `ns` and `ii` are `unsigned`
(32 bits). -/
def paletteIndex (nsignals ndatasets i : Nat) : Except Fault Nat :=
  if ndatasets = 0 then .error .divByZero
  else
    let ns := (nsignals / ndatasets) % 2 ^ 32
    if ns = 0 then .error .divByZero
    else
      let ii := (i % ns) % 2 ^ 32
      .ok (ii % ncolors)

/-- Update of `all_totals_nd[ds]` (lines 262-269). -/
def accumulateNd (total : Option TH1) (ds : Nat) (hpdf_nd : TH1) : TH1 :=
  match total with
  | none => hpdf_nd.clone ("htotal_" ++ toString ds)
  | some t => t.add hpdf_nd

/-- Update of `all_totals[ds][j]` (lines 277-286). -/
def accumulate (total : Option TH1) (ds : Nat) (obsname : String) (m : TH1) : TH1 :=
  match total with
  | none =>
    { m.clone ("htotal_" ++ toString ds ++ obsname) with lineColor := kMagenta, lineStyle := 1 }
  | some t => if m.integral > 0 then t.add m else t

/-- Body of the loop of lines 271-287 for one `j`. -/
def obsStep (sig : Signal) (observables : List Observable) (ds : Nat) (color style : Int)
    (hpdf : List (Option TH1)) (j : Nat) (st : FitState) : Except Fault FitState :=
  match readAt hpdf j with
  | .error e => .error e
  | .ok none => .error .nullDeref
  | .ok (some m0) =>
    let m : TH1 := { m0 with lineColor := color, lineStyle := style }
    match readAt (st.all_plots ds) j with
    | .error e => .error e
    | .ok plot =>
      match plot.add (some m) sig.name sig.title "hist" with
      | .error e => .error e
      | .ok plot1 =>
        let st1 : FitState :=
          { st with all_plots := mapSet st.all_plots ds ((st.all_plots ds).set j plot1) }
        match readAt (st1.all_totals ds) j, readAt observables j with
        | .ok total, .ok o =>
          .ok { st1 with
                all_totals := mapSet st1.all_totals ds
                  ((st1.all_totals ds).set j (some (accumulate total ds o.name m))) }
        | .error e, _ => .error e
        | _, .error e => .error e

/-- Loop of lines 271-287: `n` more values of `j`, from `j` on. -/
def obsLoop (sig : Signal) (observables : List Observable) (ds : Nat) (color style : Int)
    (hpdf : List (Option TH1)) : Nat → Nat → FitState → Except Fault FitState
  | 0, _, st => .ok st
  | n + 1, j, st =>
    match obsStep sig observables ds color style hpdf j st with
    | .error e => .error e
    | .ok st1 => obsLoop sig observables ds color style hpdf n (j + 1) st1

/-- Body of the loop of lines 220-288 for signal `i`. -/
def signalStep (params : List ℚ) (nsources nsignals ndatasets : Nat)
    (observables : List Observable) (i : Nat) (sig : Signal) (st : FitState) :
    Except Fault FitState :=
  let r := sig.histogram.eval params nsources
  match scaledHist sig params r.1 r.2 with
  | .error e => .error e
  | .ok hpdf_nd =>
    match projections hpdf_nd observables.length with
    | .error e => .error e
    | .ok hpdf =>
      let ds := sig.dataset
      match paletteIndex nsignals ndatasets i with
      | .error e => .error e
      | .ok k =>
        let color := colors.getD k 0
        let style := styles.getD k 0
        let st1 : FitState :=
          { st with
            all_totals_nd :=
              mapSet st.all_totals_nd ds (some (accumulateNd (st.all_totals_nd ds) ds hpdf_nd)) }
        obsLoop sig observables ds color style hpdf observables.length 0 st1

/-- Loop of lines 220-288, from signal `i` on. -/
def signalLoop (params : List ℚ) (nsources nsignals ndatasets : Nat)
    (observables : List Observable) : List Signal → Nat → FitState → Except Fault FitState
  | [], _, st => .ok st
  | sig :: rest, i, st =>
    match signalStep params nsources nsignals ndatasets observables i sig st with
    | .error e => .error e
    | .ok st1 => signalLoop params nsources nsignals ndatasets observables rest (i + 1) st1

/-! ## Data histograms and export (lines 290-319) -/

/-- Loop of lines 303-308: `n` more records, from record `idata` on. -/
def fillData (data : List ℚ) (nobs ds i : Nat) :
    Nat → Nat → TH1 → Except Fault TH1
  | 0, _, hdata => .ok hdata
  | n + 1, idata, hdata =>
    match readAt data (idata * (nobs + 1) + nobs) with
    | .error e => .error e
    | .ok v =>
      match toUnsigned v with
      | .error e => .error e
      | .ok dds =>
        if dds = ds then
          match readAt data (idata * (nobs + 1) + i) with
          | .error e => .error e
          | .ok x => fillData data nobs ds i n (idata + 1) (hdata.fill x)
        else fillData data nobs ds i n (idata + 1) hdata

/-- The histogram `hdata` of lines 295-301 before filling. -/
def newData (first : TH1) : TH1 :=
  { SpectralPlot.make_like first "hdata" with
    markerStyle := 20, markerSize := 7 / 10, lineColor := kBlack, lineStyle := 1 }

/-- Body of the loop of lines 294-318 for observable `i` of dataset `ds`. -/
def finalStep (env : Env) (observables : List Observable) (data : List ℚ)
    (output_path : String) (ds i : Nat) (st : FitState) : Except Fault FitState :=
  match readAt (st.all_plots ds) i with
  | .error e => .error e
  | .ok plot =>
    match readAt plot.histograms 0 with
    | .error e => .error e
    | .ok first =>
      match fillData data observables.length ds i
          (data.length / (observables.length + 1)) 0 (newData first) with
      | .error e => .error e
      | .ok hdata =>
        match readAt (st.all_totals ds) i with
        | .error e => .error e
        | .ok total =>
          match plot.add total "fit" "Fit" "hist" with
          | .error e => .error e
          | .ok plot1 =>
            match plot1.add (some hdata) "data" "Data" env.addOptions with
            | .error e => .error e
            | .ok plot2 =>
              match readAt observables i, st.all_totals_nd ds with
              | .error e, _ => .error e
              | .ok _, none => .error .nullDeref
              | .ok o, some nd =>
                .ok { st with
                      all_plots := mapSet st.all_plots ds ((st.all_plots ds).set i plot2),
                      files := st.files ++
                        SpectralPlot.save (output_path ++ o.name ++ "_" ++ toString ds),
                      fpdfs := st.fpdfs ++ [nd] }

/-- Loop of lines 294-318: `n` more observables, from `i` on. -/
def finalObsLoop (env : Env) (observables : List Observable) (data : List ℚ)
    (output_path : String) (ds : Nat) : Nat → Nat → FitState → Except Fault FitState
  | 0, _, st => .ok st
  | n + 1, i, st =>
    match finalStep env observables data output_path ds i st with
    | .error e => .error e
    | .ok st1 => finalObsLoop env observables data output_path ds n (i + 1) st1

/-- Loop of lines 290-319. -/
def finalLoop (env : Env) (observables : List Observable) (data : List ℚ)
    (output_path : String) : List Nat → FitState → Except Fault FitState
  | [], st => .ok st
  | ds :: rest, st =>
    match finalObsLoop env observables data output_path ds observables.length 0 st with
    | .error e => .error e
    | .ok st1 => finalLoop env observables data output_path rest st1

/-- The function `plot_fit` (lines 151-322); `datasets` lists the set in
iteration order. -/
def plot_fit (env : Env) (best_fit : List (String × Interval)) (live_time : ℚ)
    (sources : List Source) (signals : List Signal) (systematics : List Systematic)
    (observables : List Observable) (datasets : List Nat) (data : List ℚ)
    (output_path : String) : Except Fault FitState :=
  let st0 := setupLoop env live_time observables datasets initState
  match paramVector env best_fit sources systematics with
  | .error e => .error e
  | .ok params =>
    match signalLoop params sources.length signals.length datasets.length observables
        signals 0 st0 with
    | .error e => .error e
    | .ok st1 => finalLoop env observables data output_path datasets st1

/-! ## Vocabulary of the statements -/

/-- One call `add(h, objname, title, options)` with a non-null histogram. -/
structure AddCall where
  h : TH1
  objname : String
  title : String
  options : String
  deriving DecidableEq

/-- A sequence of `SpectralPlot::add` calls on the overlay `p`. -/
def addAll : SpectralPlot → List AddCall → Except Fault SpectralPlot
  | p, [] => .ok p
  | p, c :: cs =>
    match p.add (some c.h) c.objname c.title c.options with
    | .error e => .error e
    | .ok p1 => addAll p1 cs

/-- The clones, in call order, of the inputs whose integral is not zero. -/
def drawnClones (p : SpectralPlot) (calls : List AddCall) : List TH1 :=
  (calls.filter (fun c => decide (c.h.integral ≠ 0))).map (fun c => p.styled c.h c.objname)

/-- The configured ranges set on the head of a list of histograms. -/
def rangedHead (p : SpectralPlot) : List TH1 → List TH1
  | [] => []
  | h :: t => p.withRanges h :: t

/-- Position of signal `i` among the signals of its own dataset, counted in
list order, on the list of the signals' dataset ids. -/
def ordinalInDataset (dss : List Nat) (i : Nat) : Nat :=
  (dss.take i).count (dss.getD i 0)

/-- The fault a run ended with, if any. -/
def faultOf {α : Type} : Except Fault α → Option Fault
  | .ok _ => none
  | .error e => some e

/-- The signal list layout in which each dataset owns one run of `ns`
consecutive signals: the dataset ids of such a list. -/
def blocks (ns : Nat) : List Nat → List Nat
  | [] => []
  | d :: ds => List.replicate ns d ++ blocks ns ds

/-- The marginals of a histogram of dimension 1, 2 or 3, one per axis in the
order X, Y, Z, as lines 237-248 produce them. -/
def axisMarginals (h : TH1) : List TH1 :=
  match h.contents with
  | .d1 _ => [h]
  | .d2 _ => [h.ProjectionX "hpdf_x", h.ProjectionY "hpdf_y"]
  | .d3 _ => [h.ProjectionX "hpdf_x", h.ProjectionY "hpdf_y", h.ProjectionZ "hpdf_z"]
  | .dn _ _ => []

/-- The point estimate read for `key` at lines 196 and 206. -/
def estimate (env : Env) (best_fit : List (String × Interval)) (key : String) : ℚ :=
  (bestFitAt env best_fit key).point_estimate

/-- The estimates of the systematics' keys `"<name>_<j>"` in declared
(systematic, `j`) order. -/
def systEstimates (env : Env) (best_fit : List (String × Interval)) : List Systematic → List ℚ
  | [] => []
  | s :: rest =>
    (List.range s.npars).map (fun j => estimate env best_fit (systKey s.name j))
      ++ systEstimates env best_fit rest

/-- The sum `p1 + ... + pk` of the systematics' parameter counts. -/
def totalPars (systematics : List Systematic) : Nat :=
  (systematics.map (fun s => s.npars)).sum

/-- The scaled full-dimensional histogram `hpdf_nd` of a signal, when the
signal's source index is inside the parameter vector. -/
def signalHist (params : List ℚ) (nsources : Nat) (sig : Signal) : Option TH1 :=
  match scaledHist sig params (sig.histogram.eval params nsources).1
      (sig.histogram.eval params nsources).2 with
  | .ok h => some h
  | .error _ => none

/-- The scaled observable-`j` marginal of a signal. -/
def signalMarginal (params : List ℚ) (nsources : Nat) (sig : Signal) (j : Nat) : Option TH1 :=
  match signalHist params nsources sig with
  | some h => (axisMarginals h)[j]?
  | none => none

/-- What the loop of lines 220-288 relies on for one signal: its dataset is
in the dataset set, its source index is inside the parameter vector, and its
model histogram has dimension 1, 2 or 3, equal to the number of observables. -/
def SignalOk (params : List ℚ) (nsources nobs : Nat) (datasets : List Nat) (sig : Signal) :
    Prop :=
  sig.dataset ∈ datasets ∧ sig.source.index < params.length ∧
    (sig.histogram.eval params nsources).2.dim = nobs ∧ 1 ≤ nobs ∧ nobs ≤ 3

instance (params : List ℚ) (nsources nobs : Nat) (datasets : List Nat) (sig : Signal) :
    Decidable (SignalOk params nsources nobs datasets sig) := by
  unfold SignalOk
  infer_instance

/-- Entry `k` of `all_totals[ds]` once the loop of lines 271-287 has passed
`k` with the marginals `ms`, from the entries `old` before the loop. -/
def accumCell (observables : List Observable) (ds : Nat) (ms : List TH1)
    (old : List (Option TH1)) (k : Nat) : Option (Option TH1) :=
  match ms[k]?, observables[k]? with
  | some m, some o => some (some (accumulate (old.getD k none) ds o.name m))
  | _, _ => none

/-- The total `all_totals[d][j]` after one more signal of the list, `obsname`
being the name of observable `j`. -/
def stepTotal (params : List ℚ) (nsources d : Nat) (obsname : String) (j : Nat)
    (t : Option TH1) (sig : Signal) : Option TH1 :=
  if sig.dataset = d then
    match signalMarginal params nsources sig j with
    | some m => some (accumulate t d obsname m)
    | none => t
  else t

/-- The total `all_totals_nd[d]` after one more signal of the list. -/
def stepNd (params : List ℚ) (nsources d : Nat) (t : Option TH1) (sig : Signal) : Option TH1 :=
  if sig.dataset = d then
    match signalHist params nsources sig with
    | some h => some (accumulateNd t d h)
    | none => t
  else t

/-- The scaled observable-`j` marginals of the signals whose dataset is `d`,
in list order, one per signal. -/
def datasetMarginals (params : List ℚ) (nsources : Nat) (signals : List Signal) (d j : Nat) :
    List TH1 :=
  (signals.filter (fun s => decide (s.dataset = d))).filterMap
    (fun s => signalMarginal params nsources s j)

/-- The total `all_totals[d][j]` of a finished run, if any. -/
def totalAt (r : Except Fault FitState) (d j : Nat) : Option TH1 :=
  match r with
  | .ok st => (st.all_totals d).getD j none
  | .error _ => none

/-- The total `all_totals_nd[d]` of a finished run, if any. -/
def ndTotalAt (r : Except Fault FitState) (d : Nat) : Option TH1 :=
  match r with
  | .ok st => st.all_totals_nd d
  | .error _ => none

/-- The legend of the overlay `all_plots[d][j]` of a finished run. -/
def legendAt (r : Except Fault FitState) (d j : Nat) : List (String × String) :=
  match r with
  | .ok st => (((st.all_plots d)[j]?).map (fun p => p.legend)).getD []
  | .error _ => []

/-- All cells of a histogram, in storage order. -/
def Contents.cells : Contents → List Val
  | .d1 b => b
  | .d2 b => b.flatten
  | .d3 b => (b.map List.flatten).flatten
  | .dn _ b => b

/-- Every cell of the histogram is a rational (no infinity, no NaN). -/
def TH1.finite (h : TH1) : Prop := ∀ v ∈ h.contents.cells, v.isFin = true

instance (h : TH1) : Decidable h.finite := by
  unfold TH1.finite
  infer_instance

/-- Entry `k` of `all_plots[ds]` once the loop of lines 271-287 has passed `k`
with the marginals `ms`: the overlay `old[k]` after `add` of the marginal with
the colour and line style set at lines 272-273. -/
def plotCell (sig : Signal) (color style : Int) (ms : List TH1) (old : List SpectralPlot)
    (k : Nat) : Option SpectralPlot :=
  match ms[k]?, old[k]? with
  | some m, some pl =>
    match pl.add (some { m with lineColor := color, lineStyle := style })
        sig.name sig.title "hist" with
    | .ok pl1 => some pl1
    | .error _ => none
  | _, _ => none

/-- The (colour, line style) pairs of the histograms drawn on the overlay
`all_plots[d][j]` of a finished run, in drawing order. -/
def drawnStylesAt (r : Except Fault FitState) (d j : Nat) : List (Int × Int) :=
  match r with
  | .ok st =>
    (((st.all_plots d)[j]?).map
      (fun p => p.histograms.map (fun h => (h.lineColor, h.lineStyle)))).getD []
  | .error _ => []

/-- The expected count `nexp` of lines 230-231, from the engine's count
`norm` and the parameter `p` of the signal's source. -/
def expectedCount (sig : Signal) (norm : Nat) (p : ℚ) : Val :=
  Val.fin sig.nexpected * (Val.fin 1 * Val.fin (norm : ℚ) / Val.fin (sig.n_mc : ℚ)) * Val.fin p

/-! ## Concrete inputs used by the examples -/

/-- A one-dimensional histogram on the axis `[0, 10)` with the given cells. -/
def exHist (b : List Val) : TH1 :=
  { name := "h", title := "", xtitle := "", ytitle := "", lineWidth := 1, lineColor := 0,
    lineStyle := 0, markerStyle := 0, markerSize := 1, axes := [(0, 10)], xrange := none,
    yrange := none, entries := 0, contents := .d1 b }

/-- A fresh overlay with x-range `[0, 10]` and automatic y-range. -/
def exPlot : SpectralPlot := SpectralPlot.new 2 0 10 (-1) (-1) false "" "E" "Events"

/-- A signal of source `src` in dataset `ds` with nominal count 100 from 1000
generated events, for which the engine reports `accepted` events and the model
histogram `model`. -/
def exSignal (ds : Nat) (src : Source) (accepted : Nat) (model : TH1) : Signal :=
  { name := "s", title := "S", nexpected := 100, n_mc := 1000, dataset := ds,
    source := src, histogram := ⟨fun _ _ => (accepted, model)⟩ }

/-- An observable on `[0, 10)` with two cells and automatic y-range. -/
def exObservable : Observable :=
  { name := "e", title := "E", units := "MeV", lower := 0, upper := 10, bins := 2,
    yrange0 := -1, yrange1 := -1, logscale := false }

/-- A platform whose value-initialised `Interval` has point estimate zero. -/
def exEnv : Env :=
  { fmt := fun _ => "", defaultInterval := ⟨0⟩, addOptions := "" }

/-- A two-dimensional histogram with the given cells. -/
def exHist2 (b : List (List Val)) : TH1 :=
  { exHist [] with axes := [(0, 10), (0, 10)], contents := .d2 b }

/-- An object of four dimensions. -/
def exHist4 : TH1 :=
  { exHist [] with axes := [(0, 10), (0, 10), (0, 10), (0, 10)], contents := .dn 0 [1] }

/-- Two signals of dataset 0 with the same model `[1, 3]`, for the sources at
indices 0 and 1 of the parameter vector. -/
def exSignals2 : List Signal :=
  [exSignal 0 ⟨"a", 0⟩ 500 (exHist [1, 3]), exSignal 0 ⟨"b", 1⟩ 500 (exHist [1, 3])]

/-- Signals with model `[1, 3]` of the source at index 0, one per dataset id
of the list, in that order. -/
def exSignalsOf (dss : List Nat) : List Signal :=
  dss.map (fun ds => exSignal ds ⟨"a", 0⟩ 500 (exHist [1, 3]))


/-! # Properties -/

/-! ## `SpectralPlot::add` -/

theorem styled_integral (p : SpectralPlot) (h : TH1) (n : String) :
    (p.styled h n).integral = h.integral := rfl

/-- Closed form of one `add` call with a non-null histogram. -/
theorem add_some (p : SpectralPlot) (c : AddCall) :
    p.add (some c.h) c.objname c.title c.options =
      .ok { p with
            legend := p.legend ++ [("__" ++ c.objname, c.title)],
            histograms := p.histograms ++
              (if c.h.integral = 0 then []
               else if p.histograms = [] then [p.withRanges (p.styled c.h c.objname)]
               else [p.styled c.h c.objname]),
            canvas := p.canvas ++
              (if c.h.integral = 0 then []
               else if p.histograms = [] then [c.options]
               else ["same " ++ c.options]) } := by
  unfold SpectralPlot.add
  simp only [styled_integral]
  by_cases h0 : c.h.integral = 0
  · simp [h0, SpectralPlot.styled, TH1.clone]
  · by_cases h1 : p.histograms = []
    · simp [h0, h1, SpectralPlot.styled, TH1.clone]
    · have : ¬ (p.histograms.length = 0) := by
        simpa [List.length_eq_zero] using h1
      simp [h0, h1, this, SpectralPlot.styled, TH1.clone]

theorem drawnClones_cons (p : SpectralPlot) (c : AddCall) (cs : List AddCall) :
    drawnClones p (c :: cs) =
      (if c.h.integral = 0 then [] else [p.styled c.h c.objname]) ++ drawnClones p cs := by
  unfold drawnClones
  by_cases h0 : c.h.integral = 0 <;> simp [List.filter_cons, h0]

/-- Closed form of a sequence of `add` calls on any overlay. -/
theorem addAll_eq (calls : List AddCall) : ∀ p : SpectralPlot,
    ∃ cv, addAll p calls =
      .ok { p with
            legend := p.legend ++ calls.map (fun c => ("__" ++ c.objname, c.title)),
            histograms :=
              if p.histograms = [] then rangedHead p (drawnClones p calls)
              else p.histograms ++ drawnClones p calls,
            canvas := cv } := by
  induction calls with
  | nil =>
    intro p
    refine ⟨p.canvas, ?_⟩
    cases p
    rename_i hs lg cv
    by_cases h : hs = [] <;> simp [addAll, drawnClones, rangedHead, h]
  | cons c cs ih =>
    intro p
    simp only [addAll, add_some]
    obtain ⟨cv, hcv⟩ := ih { p with
            legend := p.legend ++ [("__" ++ c.objname, c.title)],
            histograms := p.histograms ++
              (if c.h.integral = 0 then []
               else if p.histograms = [] then [p.withRanges (p.styled c.h c.objname)]
               else [p.styled c.h c.objname]),
            canvas := p.canvas ++
              (if c.h.integral = 0 then []
               else if p.histograms = [] then [c.options]
               else ["same " ++ c.options]) }
    refine ⟨cv, ?_⟩
    rw [hcv, drawnClones_cons]
    by_cases h0 : c.h.integral = 0
    · by_cases h1 : p.histograms = []
      · simp [h0, h1, drawnClones, SpectralPlot.styled, SpectralPlot.withRanges, rangedHead]
      · simp [h0, h1, drawnClones, SpectralPlot.styled]
    · by_cases h1 : p.histograms = []
      · simp [h0, h1, drawnClones, SpectralPlot.styled, rangedHead, SpectralPlot.withRanges]
      · simp [h0, h1, drawnClones, SpectralPlot.styled]

/-- C10 (as amended): on a fresh overlay, any sequence of `add` calls with
non-null histograms succeeds; the legend holds one entry per call in call
order; the drawn list holds the clones of the inputs of non-zero integral in
call order; the configured x-range (and the y-range unless `ymin = ymax = -1`)
is set on the head of the drawn list only, that is on the first input of
non-zero integral if there is one, and on no histogram otherwise. -/
theorem add_sequence_on_fresh_overlay (lw : Int) (xmin xmax ymin ymax : ℚ) (logy : Bool)
    (title xtitle ytitle : String) (calls : List AddCall) :
    ∃ p', addAll (SpectralPlot.new lw xmin xmax ymin ymax logy title xtitle ytitle) calls = .ok p' ∧
      p'.legend = calls.map (fun c => ("__" ++ c.objname, c.title)) ∧
      p'.histograms =
        rangedHead (SpectralPlot.new lw xmin xmax ymin ymax logy title xtitle ytitle)
          (drawnClones (SpectralPlot.new lw xmin xmax ymin ymax logy title xtitle ytitle) calls) ∧
      (∀ h : TH1,
        ((SpectralPlot.new lw xmin xmax ymin ymax logy title xtitle ytitle).withRanges h).xrange
            = some (xmin, xmax) ∧
        ((SpectralPlot.new lw xmin xmax ymin ymax logy title xtitle ytitle).withRanges h).yrange
            = if ymin = -1 ∧ ymax = -1 then h.yrange else some (ymin, ymax)) := by
  obtain ⟨cv, hcv⟩ :=
    addAll_eq calls (SpectralPlot.new lw xmin xmax ymin ymax logy title xtitle ytitle)
  refine ⟨_, hcv, ?_, ?_, ?_⟩
  · simp [SpectralPlot.new]
  · simp [SpectralPlot.new]
  · intro h
    by_cases hy : ymin = -1 ∧ ymax = -1
    · simp [SpectralPlot.withRanges, SpectralPlot.new, hy]
    · simp [SpectralPlot.withRanges, SpectralPlot.new, hy]

set_option maxRecDepth 4000 in
/-- C10 (counterexample): the first histogram added to a fresh overlay has
integral zero; it gets a legend entry, is not drawn and never receives the
configured range, and the range is applied by the later, second `add`.  With
that single zero-integral call alone the range is applied to no histogram. -/
theorem add_range_not_on_first_added :
    addAll exPlot [⟨exHist [0, 0], "a", "A", "hist"⟩, ⟨exHist [1, 2], "b", "B", "hist"⟩] =
      .ok { exPlot with
            legend := [("__a", "A"), ("__b", "B")],
            histograms := [{ exPlot.styled (exHist [1, 2]) "b" with xrange := some (0, 10) }],
            canvas := ["hist"] } ∧
    addAll exPlot [⟨exHist [0, 0], "a", "A", "hist"⟩] =
      .ok { exPlot with legend := [("__a", "A")] } := by
  decide!

/-! ## Palette index -/

theorem paletteIndex_eq (nsignals ndatasets i : Nat) (hd : 0 < ndatasets)
    (hn : ndatasets ≤ nsignals) (hsz : nsignals < 2 ^ 32) :
    paletteIndex nsignals ndatasets i = .ok (i % (nsignals / ndatasets) % 6) := by
  have h1 : ndatasets ≠ 0 := Nat.pos_iff_ne_zero.mp hd
  have h2 : nsignals / ndatasets ≠ 0 := by
    have := Nat.div_pos hn hd
    omega
  have h3 : nsignals / ndatasets < 2 ^ 32 := Nat.lt_of_le_of_lt (Nat.div_le_self _ _) hsz
  have h4 : i % (nsignals / ndatasets) < 2 ^ 32 :=
    Nat.lt_trans (Nat.mod_lt _ (Nat.pos_of_ne_zero h2)) h3
  unfold paletteIndex
  simp only [h1, if_false, Nat.mod_eq_of_lt h3, h2, Nat.mod_eq_of_lt h4, ncolors]

theorem mem_blocks (ns : Nat) : ∀ (ds : List Nat) (x : Nat), x ∈ blocks ns ds → x ∈ ds := by
  intro ds
  induction ds with
  | nil => intro x hx; simp [blocks] at hx
  | cons d ds ih =>
    intro x hx
    simp only [blocks, List.mem_append] at hx
    rcases hx with hx | hx
    · have := List.eq_of_mem_replicate hx
      simp [this]
    · exact List.mem_cons_of_mem _ (ih x hx)

theorem length_blocks (ns : Nat) : ∀ ds : List Nat, (blocks ns ds).length = ns * ds.length := by
  intro ds
  induction ds with
  | nil => simp [blocks]
  | cons d ds ih => simp [blocks, ih, Nat.mul_succ, Nat.add_comm]

/-- In the block layout the position of a signal inside its dataset is its
list position modulo the block length. -/
theorem ordinal_blocks (ns : Nat) : ∀ (ds : List Nat), ds.Nodup →
    ∀ i, i < (blocks ns ds).length → ordinalInDataset (blocks ns ds) i = i % ns := by
  intro ds
  induction ds with
  | nil => intro _ i hi; simp [blocks] at hi
  | cons d ds ih =>
    intro hnd i hi
    have hnd' := List.nodup_cons.mp hnd
    unfold ordinalInDataset
    simp only [blocks]
    by_cases hlt : i < ns
    · have hget : (List.replicate ns d ++ blocks ns ds).getD i 0 = d := by
        rw [List.getD_append _ _ _ _ (by simpa using hlt)]
        simp [List.getD_eq_getElem?_getD, List.getElem?_replicate, hlt]
      have htake : (List.replicate ns d ++ blocks ns ds).take i = List.replicate i d := by
        rw [List.take_append_of_le_length (by simp; omega)]
        simp [List.take_replicate, Nat.min_eq_left (Nat.le_of_lt hlt)]
      rw [hget, htake, List.count_replicate_self, Nat.mod_eq_of_lt hlt]
    · have hge : ns ≤ i := Nat.le_of_not_lt hlt
      have hi' : i - ns < (blocks ns ds).length := by
        simp [blocks] at hi
        omega
      have hget : (List.replicate ns d ++ blocks ns ds).getD i 0 = (blocks ns ds).getD (i - ns) 0 := by
        rw [List.getD_append_right _ _ _ _ (by simpa using hge)]
        simp
      have htake : (List.replicate ns d ++ blocks ns ds).take i
          = List.replicate ns d ++ (blocks ns ds).take (i - ns) := by
        rw [List.take_append_eq_append_take]
        simp [List.take_replicate, Nat.min_eq_right hge]
      have hmem : (blocks ns ds).getD (i - ns) 0 ∈ ds := by
        apply mem_blocks ns
        rw [List.getD_eq_getElem _ _ hi']
        exact List.getElem_mem _
      have hne : (blocks ns ds).getD (i - ns) 0 ≠ d := by
        intro h
        exact hnd'.1 (h ▸ hmem)
      have hrec := ih hnd'.2 (i - ns) hi'
      unfold ordinalInDataset at hrec
      rw [hget, htake, List.count_append, hrec, List.count_replicate]
      have : ¬ (d = (blocks ns ds).getD (i - ns) 0) := fun h => hne h.symm
      simp only [beq_iff_eq, this, if_false, Nat.zero_add]
      have := Nat.mod_eq_sub_mod hge
      omega

/-! ## Rescaling to the expected count -/

theorem fin_mul_fin (a b : ℚ) : Val.fin a * Val.fin b = Val.fin (a * b) := rfl

theorem fin_div_fin (a b : ℚ) (hb : b ≠ 0) : Val.fin a / Val.fin b = Val.fin (a / b) := by
  show Val.div (Val.fin a) (Val.fin b) = _
  simp [Val.div, hb]

/-- A quotient by zero is never a rational. -/
theorem div_zero_not_fin (x : Val) : (x / (0 : Val)).isFin = false := by
  show (Val.div x (Val.fin 0)).isFin = false
  cases x with
  | fin a =>
    simp only [Val.div, if_true]
    unfold Val.ofSign
    split
    · rfl
    · split <;> rfl
  | pinf => simp [Val.div, Val.isFin]
  | ninf => simp [Val.div, Val.isFin]
  | nan => rfl

theorem isFin_iff (v : Val) : v.isFin = true ↔ v = Val.fin v.toRat := by
  cases v <;> simp [Val.isFin, Val.toRat]

/-- The sum of rational cells is the rational sum. -/
theorem sum_of_fin : ∀ l : List Val, (∀ v ∈ l, v.isFin = true) →
    l.sum = Val.fin (l.map Val.toRat).sum := by
  intro l
  induction l with
  | nil => intro _; rfl
  | cons x xs ih =>
    intro h
    have hx := (isFin_iff x).mp (h x (List.mem_cons_self _ _))
    rw [List.sum_cons, ih (fun v hv => h v (List.mem_cons_of_mem _ hv)), List.map_cons,
      List.sum_cons]
    rw [hx]
    rfl

theorem sum_scale_of_fin (c : ℚ) : ∀ l : List Val, (∀ v ∈ l, v.isFin = true) →
    (l.map (Val.fin c * ·)).sum = Val.fin (c * (l.map Val.toRat).sum) := by
  intro l
  induction l with
  | nil => intro _; simp; rfl
  | cons x xs ih =>
    intro h
    have hx := (isFin_iff x).mp (h x (List.mem_cons_self _ _))
    rw [List.map_cons, List.sum_cons, ih (fun v hv => h v (List.mem_cons_of_mem _ hv)),
      List.map_cons, List.sum_cons, mul_add]
    rw [hx]
    rfl

theorem integral_eq_sum_cells (x : Contents) : x.integral = x.cells.sum := by
  cases x with
  | d1 b => rfl
  | d2 b => simp [Contents.integral, Contents.cells, List.sum_flatten]
  | d3 b =>
    simp only [Contents.integral, Contents.cells, List.sum_flatten, List.map_map]
    congr 1
    apply List.map_congr_left
    intro p _
    simp [List.sum_flatten]
  | dn k b => rfl

theorem cells_scale (c : Val) (x : Contents) :
    (x.scale c).cells = x.cells.map (c * ·) := by
  cases x with
  | d1 b => rfl
  | d2 b => simp [Contents.scale, Contents.cells, List.map_flatten]
  | d3 b =>
    simp only [Contents.scale, Contents.cells, List.map_flatten, List.map_map]
    congr 1
    apply List.map_congr_left
    intro p _
    simp [List.map_flatten]
  | dn k b => rfl

theorem ofSign_not_fin (s : Int) : (Val.ofSign s).isFin = false := by
  unfold Val.ofSign
  split
  · rfl
  · split <;> rfl

theorem mul_of_not_fin (x y : Val) (h : x.isFin = false ∨ y.isFin = false) :
    Val.mul x y = match x.sign, y.sign with
      | some s, some t => Val.ofSign (s * t)
      | _, _ => Val.nan := by
  cases x <;> cases y <;> first | rfl | simp [Val.isFin] at h

theorem mul_not_fin (x y : Val) (h : x.isFin = false ∨ y.isFin = false) :
    (x * y).isFin = false := by
  show (Val.mul x y).isFin = false
  rw [mul_of_not_fin x y h]
  cases x.sign <;> cases y.sign <;> first | rfl | exact ofSign_not_fin _

theorem mul_not_fin_left (x y : Val) (hx : x.isFin = false) : (x * y).isFin = false :=
  mul_not_fin x y (Or.inl hx)

theorem mul_not_fin_right (x y : Val) (hy : y.isFin = false) : (x * y).isFin = false :=
  mul_not_fin x y (Or.inr hy)

theorem div_fin_not_fin (x : Val) (b : ℚ) (hx : x.isFin = false) :
    (x / Val.fin b).isFin = false := by
  show (Val.div x (Val.fin b)).isFin = false
  cases x with
  | fin a => simp [Val.isFin] at hx
  | pinf => simp only [Val.div]; split <;> rfl
  | ninf => simp only [Val.div]; split <;> rfl
  | nan => rfl

theorem add_not_fin_left (x y : Val) (hx : x.isFin = false) : (x + y).isFin = false := by
  show (Val.add x y).isFin = false
  cases x <;> cases y <;> simp_all [Val.add, Val.isFin]

/-- A non-empty sum of values none of which is a rational is not a rational. -/
theorem sum_not_fin : ∀ l : List Val, l ≠ [] → (∀ v ∈ l, v.isFin = false) →
    l.sum.isFin = false := by
  intro l hl h
  cases l with
  | nil => exact absurd rfl hl
  | cons x xs =>
    rw [List.sum_cons]
    exact add_not_fin_left _ _ (h x (List.mem_cons_self _ _))

/-- C2: in exact arithmetic (rational cells), for a model histogram of
non-zero integral and a source index inside the parameter vector, the
histogram scaled at lines 230-234 has integral
`nexpected * (accepted / n_mc) * params[source.index]`; the quotient by `n_mc`
is a rational only for `n_mc` not zero, and for `n_mc = 0` the integral is an
infinity or a NaN. -/
theorem scaled_integral (sig : Signal) (params : List ℚ) (accepted : Nat) (model : TH1)
    (p : ℚ) (hp : params[sig.source.index]? = some p) (hfin : model.finite)
    (hI : model.integral ≠ 0) :
    ∃ hpdf_nd, scaledHist sig params accepted model = .ok hpdf_nd ∧
      (sig.n_mc ≠ 0 → hpdf_nd.integral
        = Val.fin (sig.nexpected * ((accepted : ℚ) / (sig.n_mc : ℚ)) * p)) ∧
      (sig.n_mc = 0 → hpdf_nd.integral.isFin = false) := by
  have hint : model.integral = Val.fin (model.contents.cells.map Val.toRat).sum := by
    unfold TH1.integral
    rw [integral_eq_sum_cells, sum_of_fin _ hfin]
  have hS : (model.contents.cells.map Val.toRat).sum ≠ 0 := by
    intro h0
    apply hI
    rw [hint, h0]
    rfl
  refine ⟨model.scale (Val.fin sig.nexpected
      * (Val.fin 1 * Val.fin (accepted : ℚ) / Val.fin (sig.n_mc : ℚ)) * Val.fin p
      / model.integral), by simp only [scaledHist, readAt, hp], ?_, ?_⟩
  · intro hn
    have hnq : (sig.n_mc : ℚ) ≠ 0 := Nat.cast_ne_zero.mpr hn
    rw [hint, fin_mul_fin, fin_div_fin _ _ hnq, fin_mul_fin, fin_mul_fin, fin_div_fin _ _ hS]
    unfold TH1.integral TH1.scale
    simp only
    rw [integral_eq_sum_cells, cells_scale, sum_scale_of_fin _ _ hfin, div_mul_cancel₀ _ hS,
      one_mul]
  · intro hn
    have hcells : model.contents.cells ≠ [] := by
      intro h0
      apply hS
      rw [h0]
      rfl
    have hq : (Val.fin 1 * Val.fin (accepted : ℚ) / Val.fin (sig.n_mc : ℚ)).isFin = false := by
      rw [hn, fin_mul_fin]
      exact div_zero_not_fin _
    have hc : (Val.fin sig.nexpected
        * (Val.fin 1 * Val.fin (accepted : ℚ) / Val.fin (sig.n_mc : ℚ)) * Val.fin p
        / model.integral).isFin = false := by
      rw [hint]
      exact div_fin_not_fin _ _ (mul_not_fin_left _ _ (mul_not_fin_right _ _ hq))
    unfold TH1.integral TH1.scale
    simp only
    rw [integral_eq_sum_cells, cells_scale]
    apply sum_not_fin
    · simpa using hcells
    · intro v hv
      obtain ⟨w, _, rfl⟩ := List.mem_map.mp hv
      exact mul_not_fin_left _ _ hc

/-- C2 (witness): `nexpected = 100`, `n_mc = 1000`, `accepted = 500` and
parameter `2` give integral `100`. -/
theorem scaled_integral_witness :
    ∃ hpdf_nd, scaledHist (exSignal 0 ⟨"a", 0⟩ 500 (exHist [1, 3])) [2] 500 (exHist [1, 3])
        = .ok hpdf_nd ∧ hpdf_nd.integral = 100 := by
  obtain ⟨h, h1, h2, _⟩ :=
    scaled_integral (exSignal 0 ⟨"a", 0⟩ 500 (exHist [1, 3])) [2] 500 (exHist [1, 3]) 2 rfl
      (by decide!) (by decide!)
  refine ⟨h, h1, ?_⟩
  rw [h2 (by decide)]
  decide!

/-! ## Projection onto the observable axes -/

/-- Closed form of the projection step for the three supported classes. -/
theorem projections_of_dim (h : TH1) (hd : h.dim = 1 ∨ h.dim = 2 ∨ h.dim = 3) :
    projections h h.dim = .ok ((axisMarginals h).map some) ∧ (axisMarginals h).length = h.dim := by
  unfold projections axisMarginals TH1.dim at *
  cases hc : h.contents with
  | d1 b => simp [Contents.dim, writeAt]
  | d2 b => simp [Contents.dim, writeAt, List.replicate]
  | d3 b => simp [Contents.dim, writeAt, List.replicate]
  | dn k b => simp [hc, Contents.dim] at hd

/-- C6 (as amended): a model histogram that is not of dimension 1, 2 or 3
ends the projection step with the fatal dimensionality fault; a histogram of
dimension `D` in `{1, 2, 3}` equal to the number of observables yields exactly
`D` non-null marginals, one per axis in X, Y, Z order; a histogram of
dimension 1, 2 or 3 never raises the dimensionality fault, whatever the number
of observables (a mismatch is not checked); and the step of `plot_fit` for a
signal whose source index is inside the parameter vector and whose model
histogram is not of dimension 1, 2 or 3 ends the run with the dimensionality
fault. -/
theorem projections_by_dimension (h : TH1) (nobs : Nat) :
    (¬ (h.dim = 1 ∨ h.dim = 2 ∨ h.dim = 3) → projections h nobs = .error .dimensionality) ∧
    (h.dim = 1 ∨ h.dim = 2 ∨ h.dim = 3 → h.dim = nobs →
      projections h nobs = .ok ((axisMarginals h).map some) ∧
        (axisMarginals h).length = h.dim) ∧
    (h.dim = 1 ∨ h.dim = 2 ∨ h.dim = 3 → projections h nobs ≠ .error .dimensionality) ∧
    (∀ (params : List ℚ) (nsources nsignals ndatasets : Nat) (observables : List Observable)
        (i : Nat) (sig : Signal) (st : FitState) (p : ℚ),
      (sig.histogram.eval params nsources).2 = h → params[sig.source.index]? = some p →
      ¬ (h.dim = 1 ∨ h.dim = 2 ∨ h.dim = 3) →
      signalStep params nsources nsignals ndatasets observables i sig st
        = .error .dimensionality) := by
  refine ⟨?_, ?_, ?_, ?_⟩
  rotate_left 3
  · intro params nsources nsignals ndatasets observables i sig st p he hp hd
    unfold signalStep scaledHist
    simp only [readAt, hp, he]
    cases hc : h.contents with
    | dn k b => simp [projections, TH1.scale, hc, Contents.scale]
    | d1 b => simp [TH1.dim, hc, Contents.dim] at hd
    | d2 b => simp [TH1.dim, hc, Contents.dim] at hd
    | d3 b => simp [TH1.dim, hc, Contents.dim] at hd
  · intro hd
    unfold projections
    cases hc : h.contents with
    | dn k b => rfl
    | d1 b => simp [TH1.dim, hc, Contents.dim] at hd
    | d2 b => simp [TH1.dim, hc, Contents.dim] at hd
    | d3 b => simp [TH1.dim, hc, Contents.dim] at hd
  · intro hd hn
    subst hn
    exact projections_of_dim h hd
  · intro hd
    unfold projections
    cases hc : h.contents with
    | dn k b => simp [TH1.dim, hc, Contents.dim] at hd
    | d1 b => by_cases h0 : 0 < nobs <;> simp [writeAt, h0]
    | d2 b =>
      by_cases h0 : 0 < nobs <;> by_cases h1 : 1 < nobs <;> simp [writeAt, h0, h1]
    | d3 b =>
      by_cases h0 : 0 < nobs <;> by_cases h1 : 1 < nobs <;> by_cases h2 : 2 < nobs <;>
        simp [writeAt, h0, h1, h2]

/-- C6 (witness): a four-dimensional object is rejected, and a two-dimensional
histogram with two observables yields its X and Y projections. -/
theorem projections_by_dimension_witness :
    projections exHist4 1 = .error .dimensionality ∧
    (projections (exHist2 [[1, 2], [3, 4]]) 2
        = .ok ((axisMarginals (exHist2 [[1, 2], [3, 4]])).map some) ∧
      (axisMarginals (exHist2 [[1, 2], [3, 4]])).length = 2) :=
  ⟨(projections_by_dimension exHist4 1).1 (by decide),
   (projections_by_dimension (exHist2 [[1, 2], [3, 4]]) 2).2.1 (by decide) (by decide)⟩

/-- C6 (counterexample): a one-dimensional model histogram with two
observables raises no dimensionality fault: the projection step returns one
marginal and one null pointer, and the run ends when line 272 dereferences the
null pointer; a two-dimensional one with a single observable stores past the
end of `hpdf`. -/
theorem dimension_mismatch_not_detected :
    projections (exHist [1, 3]) 2 = .ok [some (exHist [1, 3]), none] ∧
    faultOf (plot_fit exEnv [("a", ⟨2⟩)] 1 [⟨"a", 0⟩]
      [exSignal 0 ⟨"a", 0⟩ 500 (exHist [1, 3])] [] [exObservable, exObservable] [0] [] "out/")
      = some .nullDeref ∧
    projections (exHist2 [[1, 2], [3, 4]]) 1 = .error .outOfRange := by
  decide!

/-! ## Parameter vector -/

theorem writeAt_append_replicate (w : List ℚ) (n : Nat) (x : ℚ) :
    writeAt (w ++ List.replicate (n + 1) 0) w.length x
      = .ok ((w ++ [x]) ++ List.replicate n 0) := by
  have : w.length < (w ++ List.replicate (n + 1) 0).length := by simp
  simp only [writeAt, this, if_true]
  congr 1
  rw [List.set_append_right _ _ (Nat.le_refl _)]
  simp [List.replicate_succ]

theorem sourceLoop_eq (env : Env) (bf : List (String × Interval)) :
    ∀ (sources : List Source) (w : List ℚ) (rest : Nat), sources.length ≤ rest →
      sourceLoop env bf sources w.length (w ++ List.replicate rest 0)
        = .ok (w ++ sources.map (fun s => estimate env bf s.name)
            ++ List.replicate (rest - sources.length) 0) := by
  intro sources
  induction sources with
  | nil => intro w rest _; simp [sourceLoop]
  | cons s ss ih =>
    intro w rest hle
    obtain ⟨r, rfl⟩ : ∃ r, rest = r + 1 := ⟨rest - 1, by simp at hle; omega⟩
    simp only [sourceLoop, writeAt_append_replicate]
    have := ih (w ++ [estimate env bf s.name]) r (by simp at hle; omega)
    simp only [List.length_append, List.length_singleton] at this
    rw [estimate] at this
    rw [this]
    simp [estimate]

theorem parsLoop_eq (env : Env) (bf : List (String × Interval)) (name : String) :
    ∀ (n j : Nat) (w : List ℚ) (rest : Nat), n ≤ rest →
      parsLoop env bf name n j w.length (w ++ List.replicate rest 0)
        = .ok (w.length + n,
            w ++ (List.range' j n).map (fun j => estimate env bf (systKey name j))
              ++ List.replicate (rest - n) 0) := by
  intro n
  induction n with
  | zero => intro j w rest _; simp [parsLoop]
  | succ n ih =>
    intro j w rest hle
    obtain ⟨r, rfl⟩ : ∃ r, rest = r + 1 := ⟨rest - 1, by omega⟩
    simp only [parsLoop, writeAt_append_replicate]
    have := ih (j + 1) (w ++ [estimate env bf (systKey name j)]) r (by omega)
    simp only [List.length_append, List.length_singleton] at this
    rw [estimate] at this
    rw [this]
    simp [estimate, List.range'_succ, Nat.add_assoc, Nat.add_comm 1 n]

theorem systLoop_eq (env : Env) (bf : List (String × Interval)) :
    ∀ (systematics : List Systematic) (w : List ℚ) (rest : Nat),
      totalPars systematics ≤ rest →
      systLoop env bf systematics w.length (w ++ List.replicate rest 0)
        = .ok (w ++ systEstimates env bf systematics
            ++ List.replicate (rest - totalPars systematics) 0) := by
  intro systematics
  induction systematics with
  | nil => intro w rest _; simp [systLoop, systEstimates, totalPars]
  | cons s ss ih =>
    intro w rest hle
    have hle' : s.npars + totalPars ss ≤ rest := by simpa [totalPars] using hle
    simp only [systLoop, parsLoop_eq env bf s.name s.npars 0 w rest (by omega)]
    have := ih (w ++ (List.range' 0 s.npars).map (fun j => estimate env bf (systKey s.name j)))
      (rest - s.npars) (by omega)
    simp only [List.length_append, List.length_map, List.length_range'] at this
    rw [this]
    simp [systEstimates, totalPars, List.range_eq_range', Nat.sub_sub]

/-- Closed form of the parameter vector when the best-fit result has at least
as many entries as there are expected keys. -/
theorem paramVector_eq (env : Env) (bf : List (String × Interval)) (sources : List Source)
    (systematics : List Systematic)
    (hlen : sources.length + totalPars systematics ≤ bf.length) :
    paramVector env bf sources systematics
      = .ok (sources.map (fun s => estimate env bf s.name) ++ systEstimates env bf systematics
          ++ List.replicate (bf.length - (sources.length + totalPars systematics)) 0) := by
  unfold paramVector
  have h1 := sourceLoop_eq env bf sources [] bf.length (by omega)
  simp only [List.length_nil, List.nil_append] at h1
  rw [h1]
  have h2 := systLoop_eq env bf systematics (sources.map (fun s => estimate env bf s.name))
    (bf.length - sources.length) (by omega)
  simp only [List.length_map] at h2
  simp only [h2, Nat.sub_sub]

theorem length_systEstimates (env : Env) (bf : List (String × Interval)) :
    ∀ systematics : List Systematic,
      (systEstimates env bf systematics).length = totalPars systematics := by
  intro systematics
  induction systematics with
  | nil => rfl
  | cons s ss ih => simp [systEstimates, totalPars, ih] at *

/-- Position of the estimate of key `"<name>_<j>"` inside `systEstimates`. -/
theorem systEstimates_getElem? (env : Env) (bf : List (String × Interval)) :
    ∀ (systematics : List Systematic) (s : Nat) (hs : s < systematics.length) (j : Nat),
      j < systematics[s].npars →
      (systEstimates env bf systematics)[totalPars (systematics.take s) + j]?
        = some (estimate env bf (systKey systematics[s].name j)) := by
  intro systematics
  induction systematics with
  | nil => intro s hs; simp at hs
  | cons t ts ih =>
    intro s hs j hj
    cases s with
    | zero =>
      simp only [List.getElem_cons_zero] at hj
      simp only [List.take_zero, totalPars, List.map_nil, List.sum_nil, Nat.zero_add,
        systEstimates, List.getElem_cons_zero]
      rw [List.getElem?_append_left (by simpa using hj)]
      simp [List.getElem?_range, hj]
    | succ s =>
      simp only [List.getElem_cons_succ] at hj
      have hs' : s < ts.length := by simpa using hs
      have := ih s hs' j hj
      simp only [List.take_succ_cons, totalPars, List.map_cons, List.sum_cons, systEstimates,
        List.getElem_cons_succ]
      rw [List.getElem?_append_right (by simp; omega)]
      simp only [List.length_map, List.length_range]
      rw [← this]
      congr 1
      simp only [totalPars]
      omega

/-- C1 (as amended): the parameter vector built by `plot_fit` has the length
of the best-fit result (its number of entries), not `N + (p1 + ... + pk)`.
When the result has at least `N + (p1 + ... + pk)` entries the vector is
built, for each `i < N` its entry `i` is the point estimate read under
`Sources[i].name`, for each systematic `s` and `j < p_s` the entry at
`N + (p1 + ... + p_{s-1}) + j` is the point estimate read under
`"<systematic name>_<j>"`, and every later entry is zero; a key that the result
stores is read as stored. -/
theorem param_vector_layout (env : Env) (bf : List (String × Interval))
    (sources : List Source) (systematics : List Systematic)
    (hlen : sources.length + totalPars systematics ≤ bf.length) :
    ∃ params, paramVector env bf sources systematics = .ok params ∧
      params.length = bf.length ∧
      (∀ i (hi : i < sources.length),
        params[i]? = some (estimate env bf sources[i].name)) ∧
      (∀ s (hs : s < systematics.length) j, j < systematics[s].npars →
        params[sources.length + totalPars (systematics.take s) + j]?
          = some (estimate env bf (systKey systematics[s].name j))) ∧
      (∀ i, sources.length + totalPars systematics ≤ i → i < bf.length →
        params[i]? = some 0) ∧
      (∀ key iv, bf.lookup key = some iv → estimate env bf key = iv.point_estimate) := by
  refine ⟨_, paramVector_eq env bf sources systematics hlen, ?_, ?_, ?_, ?_, ?_⟩
  · simp [length_systEstimates]
    omega
  · intro i hi
    rw [List.append_assoc, List.getElem?_append_left (by simpa using hi)]
    simp [List.getElem?_map, List.getElem?_eq_getElem hi]
  · intro s hs j hj
    have hpos : totalPars (systematics.take s) + j < (systEstimates env bf systematics).length := by
      have := systEstimates_getElem? env bf systematics s hs j hj
      by_contra hcon
      rw [List.getElem?_eq_none (by omega)] at this
      exact Option.noConfusion this
    rw [List.getElem?_append_left (by simp; omega),
      List.getElem?_append_right (by simp; omega)]
    simp only [List.length_map]
    rw [← systEstimates_getElem? env bf systematics s hs j hj]
    congr 1
    omega
  · intro i h1 h2
    rw [List.getElem?_append_right (by simp [length_systEstimates]; omega)]
    simp [List.getElem?_replicate, length_systEstimates]
    omega
  · intro key iv hk
    simp [estimate, bestFitAt, hk]

/-- C1 (witness): one source and two systematics with 2 and 1 parameters on a
best-fit result of four entries. -/
theorem param_vector_layout_witness :
    ∃ params,
      paramVector exEnv [("a", ⟨2⟩), ("s_0", ⟨5⟩), ("s_1", ⟨6⟩), ("t_0", ⟨7⟩)]
        [⟨"a", 0⟩] [⟨"s", 2⟩, ⟨"t", 1⟩] = .ok params ∧
      params.length = 4 :=
  match param_vector_layout exEnv [("a", ⟨2⟩), ("s_0", ⟨5⟩), ("s_1", ⟨6⟩), ("t_0", ⟨7⟩)]
      [⟨"a", 0⟩] [⟨"s", 2⟩, ⟨"t", 1⟩] (by decide) with
  | ⟨params, h1, h2, _⟩ => ⟨params, h1, h2⟩

/-- C1 (counterexample): with one source, no systematic and a best-fit result
that holds one more entry, the vector has length 2, not `N + 0 = 1`. -/
theorem param_vector_length_is_best_fit_size :
    paramVector exEnv [("a", ⟨2⟩), ("likelihood", ⟨5⟩)] [⟨"a", 0⟩] [] = .ok [2, 0] ∧
    ([2, 0] : List ℚ).length ≠ [(⟨"a", 0⟩ : Source)].length + totalPars [] := by
  decide!

/-- C5 (as amended): reconstruction of the parameter vector has no missing-key
check.  Whenever the best-fit result has at least `N + (p1 + ... + pk)`
entries a vector is produced, whichever keys it holds, and the entry of a
Source name or of a `"<systematic name>_<j>"` key that the result lacks is the
point estimate of the value-initialised `Interval`. -/
theorem param_vector_missing_key_reads_default (env : Env) (bf : List (String × Interval))
    (sources : List Source) (systematics : List Systematic)
    (hlen : sources.length + totalPars systematics ≤ bf.length) :
    ∃ params, paramVector env bf sources systematics = .ok params ∧
      (∀ i (hi : i < sources.length), bf.lookup sources[i].name = none →
        params[i]? = some env.defaultInterval.point_estimate) ∧
      (∀ s (hs : s < systematics.length) j, j < systematics[s].npars →
        bf.lookup (systKey systematics[s].name j) = none →
        params[sources.length + totalPars (systematics.take s) + j]?
          = some env.defaultInterval.point_estimate) := by
  refine ⟨_, paramVector_eq env bf sources systematics hlen, ?_, ?_⟩
  · intro i hi hk
    rw [List.append_assoc, List.getElem?_append_left (by simpa using hi)]
    simp [List.getElem?_map, List.getElem?_eq_getElem hi, estimate, bestFitAt, hk]
  · intro s hs j hj hk
    have hget := systEstimates_getElem? env bf systematics s hs j hj
    have hpos : totalPars (systematics.take s) + j < (systEstimates env bf systematics).length := by
      by_contra hcon
      rw [List.getElem?_eq_none (by omega)] at hget
      exact Option.noConfusion hget
    rw [List.getElem?_append_left (by simp; omega),
      List.getElem?_append_right (by simp; omega)]
    simp only [List.length_map]
    have : sources.length + totalPars (systematics.take s) + j - sources.length
        = totalPars (systematics.take s) + j := by omega
    rw [this, hget]
    simp [estimate, bestFitAt, hk]

/-- C5 (witness): the best-fit result lacks the key of the only source. -/
theorem param_vector_missing_key_reads_default_witness :
    ∃ params, paramVector exEnv [("b", ⟨7⟩)] [⟨"a", 0⟩] [] = .ok params ∧
      params[0]? = some 0 :=
  match param_vector_missing_key_reads_default exEnv [("b", ⟨7⟩)] [⟨"a", 0⟩] [] (by decide) with
  | ⟨params, h1, h2, _⟩ => ⟨params, h1, h2 0 (by decide) (by decide)⟩

/-- C5 (counterexample): the best-fit result lacks the key `"a"` of the only
source and the key `"s_0"` of the only systematic parameter, and a parameter
vector is produced all the same, with zeros in their places. -/
theorem param_vector_built_without_keys :
    paramVector exEnv [("b", ⟨7⟩), ("c", ⟨8⟩)] [⟨"a", 0⟩] [⟨"s", 1⟩] = .ok [0, 0] ∧
    List.lookup "a" [("b", (⟨7⟩ : Interval)), ("c", ⟨8⟩)] = none ∧
    List.lookup (systKey "s" 0) [("b", (⟨7⟩ : Interval)), ("c", ⟨8⟩)] = none := by
  decide!

/-! ## Data histograms -/

theorem accumulate_restyle (total : Option TH1) (ds : Nat) (n : String) (m : TH1)
    (color style : Int) :
    accumulate total ds n { m with lineColor := color, lineStyle := style }
      = accumulate total ds n m := by
  cases total <;> rfl

/-- Closed form of one pass of the loop of lines 271-287. -/
theorem obsStep_ok (sig : Signal) (observables : List Observable) (ds : Nat) (color style : Int)
    (hpdf : List (Option TH1)) (j : Nat) (st : FitState) (m0 : TH1) (plot : SpectralPlot)
    (total : Option TH1) (o : Observable)
    (h1 : hpdf[j]? = some (some m0)) (h2 : (st.all_plots ds)[j]? = some plot)
    (h3 : (st.all_totals ds)[j]? = some total) (h4 : observables[j]? = some o) :
    ∃ plot1, plot.add (some { m0 with lineColor := color, lineStyle := style })
        sig.name sig.title "hist" = .ok plot1 ∧
      obsStep sig observables ds color style hpdf j st
      = .ok { st with
              all_plots := mapSet st.all_plots ds ((st.all_plots ds).set j plot1),
              all_totals := mapSet st.all_totals ds
                ((st.all_totals ds).set j (some (accumulate total ds o.name m0))) } := by
  obtain ⟨plot1, hadd⟩ : ∃ plot1, plot.add
      (some { m0 with lineColor := color, lineStyle := style }) sig.name sig.title "hist"
        = .ok plot1 :=
    ⟨_, add_some plot
      ⟨{ m0 with lineColor := color, lineStyle := style }, sig.name, sig.title, "hist"⟩⟩
  refine ⟨plot1, hadd, ?_⟩
  unfold obsStep
  simp only [readAt, h1, h2, hadd, h3, h4, accumulate_restyle]

theorem mapSet_same {β : Type} (m : Nat → β) (k : Nat) (v : β) : mapSet m k v k = v := by
  simp [mapSet]

theorem mapSet_other {β : Type} (m : Nat → β) (k d : Nat) (v : β) (h : d ≠ k) :
    mapSet m k v d = m d := by
  simp [mapSet, h]

/-- The loop of lines 271-287 completes when every marginal is non-null and
the vectors of the dataset are long enough; it rewrites the totals of the
dataset `ds` at the positions it passes and nothing else in `all_totals`. -/
theorem obsLoop_ok (sig : Signal) (observables : List Observable) (ds : Nat) (color style : Int)
    (ms : List TH1) :
    ∀ (n j : Nat) (st : FitState), j + n ≤ ms.length → j + n ≤ observables.length →
      j + n ≤ (st.all_plots ds).length → j + n ≤ (st.all_totals ds).length →
      ∃ st', obsLoop sig observables ds color style (ms.map some) n j st = .ok st' ∧
        st'.all_totals_nd = st.all_totals_nd ∧ st'.files = st.files ∧ st'.fpdfs = st.fpdfs ∧
        (∀ d, (st'.all_plots d).length = (st.all_plots d).length) ∧
        (∀ d, d ≠ ds → st'.all_totals d = st.all_totals d) ∧
        (st'.all_totals ds).length = (st.all_totals ds).length ∧
        (∀ k, (st'.all_totals ds)[k]? =
          if j ≤ k ∧ k < j + n then accumCell observables ds ms (st.all_totals ds) k
          else (st.all_totals ds)[k]?) ∧
        (∀ k, (st'.all_plots ds)[k]? =
          if j ≤ k ∧ k < j + n then plotCell sig color style ms (st.all_plots ds) k
          else (st.all_plots ds)[k]?) := by
  intro n
  induction n with
  | zero =>
    intro j st _ _ _ _
    have hno : ∀ k, ¬ (j ≤ k ∧ k < j) := fun k => by omega
    refine ⟨st, rfl, rfl, rfl, rfl, fun _ => rfl, fun _ _ => rfl, rfl, fun k => ?_, fun k => ?_⟩
    · simp [hno k]
    · simp [hno k]
  | succ n ih =>
    intro j st h1 h2 h3 h4
    have hj1 : j < ms.length := by omega
    have hj2 : j < observables.length := by omega
    have hj3 : j < (st.all_plots ds).length := by omega
    have hj4 : j < (st.all_totals ds).length := by omega
    obtain ⟨plot1, hadd, hstep⟩ := obsStep_ok sig observables ds color style (ms.map some) j st
      ms[j] (st.all_plots ds)[j] (st.all_totals ds)[j] observables[j]
      (by simp [List.getElem?_map, List.getElem?_eq_getElem hj1])
      (List.getElem?_eq_getElem hj3) (List.getElem?_eq_getElem hj4)
      (List.getElem?_eq_getElem hj2)
    obtain ⟨st', hloop, e1, e2, e3, e4, e5, e6, e7, e8⟩ := ih (j + 1) _
      (by omega) (by omega)
      (show j + 1 + n ≤ (({ st with
              all_plots := mapSet st.all_plots ds ((st.all_plots ds).set j plot1),
              all_totals := mapSet st.all_totals ds
                ((st.all_totals ds).set j
                  (some (accumulate (st.all_totals ds)[j] ds observables[j].name ms[j]))) }
            : FitState).all_plots ds).length by
        simp only [mapSet_same, List.length_set]; omega)
      (show j + 1 + n ≤ (({ st with
              all_plots := mapSet st.all_plots ds ((st.all_plots ds).set j plot1),
              all_totals := mapSet st.all_totals ds
                ((st.all_totals ds).set j
                  (some (accumulate (st.all_totals ds)[j] ds observables[j].name ms[j]))) }
            : FitState).all_totals ds).length by
        simp only [mapSet_same, List.length_set]; omega)
    refine ⟨st', by simp only [obsLoop, hstep, hloop], e1, e2, e3, ?_, ?_, ?_, ?_, ?_⟩
    · intro d
      rw [e4 d]
      by_cases hd : d = ds
      · subst hd; simp only [mapSet_same, List.length_set]
      · simp only [mapSet_other _ _ _ _ hd]
    · intro d hd
      rw [e5 d hd]
      simp only [mapSet_other _ _ _ _ hd]
    · rw [e6]; simp only [mapSet_same, List.length_set]
    · intro k
      rw [e7 k]
      simp only [mapSet_same]
      by_cases hk : k = j
      · subst hk
        have c1 : ¬ (k + 1 ≤ k ∧ k < k + 1 + n) := by omega
        have c2 : k ≤ k ∧ k < k + (n + 1) := by omega
        simp only [c1, c2, if_false, and_self, if_true]
        simp [accumCell, List.getElem?_eq_getElem hj1, List.getElem?_eq_getElem hj2,
          List.getElem?_set_self hj4, List.getElem?_eq_getElem hj4]
      · by_cases hr : j + 1 ≤ k ∧ k < j + 1 + n
        · have c2 : j ≤ k ∧ k < j + (n + 1) := by omega
          simp only [hr, c2, and_self, if_true]
          have hne : j ≠ k := fun h => hk h.symm
          simp [accumCell, List.getD_eq_getElem?_getD, List.getElem?_set_ne hne]
        · have c2 : ¬ (j ≤ k ∧ k < j + (n + 1)) := by omega
          have hne : j ≠ k := fun h => hk h.symm
          simp only [hr, c2, if_false]
          simp [List.getElem?_set_ne hne]
    · intro k
      rw [e8 k]
      simp only [mapSet_same]
      by_cases hk : k = j
      · subst hk
        have c1 : ¬ (k + 1 ≤ k ∧ k < k + 1 + n) := by omega
        have c2 : k ≤ k ∧ k < k + (n + 1) := by omega
        simp only [c1, c2, if_false, and_self, if_true]
        simp [plotCell, List.getElem?_eq_getElem hj1, List.getElem?_eq_getElem hj3,
          List.getElem?_set_self hj3, hadd]
      · have hne : j ≠ k := fun h => hk h.symm
        by_cases hr : j + 1 ≤ k ∧ k < j + 1 + n
        · have c2 : j ≤ k ∧ k < j + (n + 1) := by omega
          simp only [hr, c2, and_self, if_true]
          simp [plotCell, List.getElem?_set_ne hne]
        · have c2 : ¬ (j ≤ k ∧ k < j + (n + 1)) := by omega
          simp only [hr, c2, if_false]
          simp [List.getElem?_set_ne hne]

theorem dim_scale (h : TH1) (c : Val) : (h.scale c).dim = h.dim := by
  unfold TH1.dim TH1.scale
  cases h.contents <;> rfl

/-- The scaled histogram of a signal whose source index is inside the
parameter vector exists, whatever the integral of the model histogram. -/
theorem signalHist_of_index (params : List ℚ) (nsources : Nat) (sig : Signal)
    (hidx : sig.source.index < params.length) :
    ∃ h, scaledHist sig params (sig.histogram.eval params nsources).1
          (sig.histogram.eval params nsources).2 = .ok h ∧
      signalHist params nsources sig = some h ∧
      h.dim = (sig.histogram.eval params nsources).2.dim := by
  have hp : params[sig.source.index]? = some params[sig.source.index] :=
    List.getElem?_eq_getElem hidx
  refine ⟨(sig.histogram.eval params nsources).2.scale
      (Val.fin sig.nexpected
        * (Val.fin 1 * Val.fin ((sig.histogram.eval params nsources).1 : ℚ)
            / Val.fin (sig.n_mc : ℚ))
        * Val.fin params[sig.source.index] / (sig.histogram.eval params nsources).2.integral),
    by simp only [scaledHist, readAt, hp], ?_, dim_scale _ _⟩
  simp only [signalHist, scaledHist, readAt, hp]

/-- Closed form of the effect of one pass of the loop of lines 220-288 on the
totals, for a signal that satisfies `SignalOk`. -/
theorem signalStep_ok (params : List ℚ) (nsources nsignals ndatasets : Nat)
    (observables : List Observable) (datasets : List Nat) (i : Nat) (sig : Signal)
    (st : FitState)
    (hok : SignalOk params nsources observables.length datasets sig)
    (hd : 0 < ndatasets) (hn : ndatasets ≤ nsignals) (hsz : nsignals < 2 ^ 32)
    (hp : (st.all_plots sig.dataset).length = observables.length)
    (ht : (st.all_totals sig.dataset).length = observables.length) :
    ∃ st' h, signalHist params nsources sig = some h ∧
      (axisMarginals h).length = observables.length ∧
      signalStep params nsources nsignals ndatasets observables i sig st = .ok st' ∧
      st'.all_totals_nd = mapSet st.all_totals_nd sig.dataset
        (some (accumulateNd (st.all_totals_nd sig.dataset) sig.dataset h)) ∧
      st'.files = st.files ∧ st'.fpdfs = st.fpdfs ∧
      (∀ d, (st'.all_plots d).length = (st.all_plots d).length) ∧
      (∀ d, d ≠ sig.dataset → st'.all_totals d = st.all_totals d) ∧
      (st'.all_totals sig.dataset).length = (st.all_totals sig.dataset).length ∧
      (∀ k, k < observables.length →
        (st'.all_totals sig.dataset)[k]? =
          accumCell observables sig.dataset (axisMarginals h) (st.all_totals sig.dataset) k) ∧
      (∀ k, k < observables.length →
        (st'.all_plots sig.dataset)[k]? =
          plotCell sig (colors.getD (i % (nsignals / ndatasets) % 6) 0)
            (styles.getD (i % (nsignals / ndatasets) % 6) 0) (axisMarginals h)
            (st.all_plots sig.dataset) k) := by
  obtain ⟨_, hidx, hdim, h1, h3⟩ := hok
  obtain ⟨h, hs, hsh, hhd⟩ := signalHist_of_index params nsources sig hidx
  have hdim' : h.dim = observables.length := hhd.trans hdim
  have hd3 : h.dim = 1 ∨ h.dim = 2 ∨ h.dim = 3 := by omega
  obtain ⟨hproj, hlen⟩ := projections_of_dim h hd3
  rw [hdim'] at hproj
  obtain ⟨st', hloop, e1, e2, e3, e4, e5, e6, e7, e8⟩ :=
    obsLoop_ok sig observables sig.dataset
      (colors.getD (i % (nsignals / ndatasets) % 6) 0)
      (styles.getD (i % (nsignals / ndatasets) % 6) 0) (axisMarginals h)
      observables.length 0
      { st with
        all_totals_nd := mapSet st.all_totals_nd sig.dataset
          (some (accumulateNd (st.all_totals_nd sig.dataset) sig.dataset h)) }
      (by omega) (by omega) (by simp only; omega) (by simp only; omega)
  refine ⟨st', h, hsh, hlen.trans hdim', ?_, e1, e2, e3, e4, e5, e6, ?_, ?_⟩
  · unfold signalStep
    simp only [hs, hproj, paletteIndex_eq nsignals ndatasets i hd hn hsz, hloop]
  · intro k hk
    rw [e7 k]
    have : 0 ≤ k ∧ k < 0 + observables.length := by omega
    simp only [this, and_self, if_true]
  · intro k hk
    rw [e8 k]
    have : 0 ≤ k ∧ k < 0 + observables.length := by omega
    simp only [this, and_self, if_true]

/-- The loop of lines 220-288 completes on signals that satisfy `SignalOk`,
and each total is the fold of its accumulation step over the signals. -/
theorem signalLoop_ok (params : List ℚ) (nsources nsignals ndatasets : Nat)
    (observables : List Observable) (datasets : List Nat)
    (hd : 0 < ndatasets) (hn : ndatasets ≤ nsignals) (hsz : nsignals < 2 ^ 32) :
    ∀ (rest : List Signal) (i : Nat) (st : FitState),
      (∀ sig ∈ rest, SignalOk params nsources observables.length datasets sig) →
      (∀ d ∈ datasets, (st.all_plots d).length = observables.length ∧
        (st.all_totals d).length = observables.length) →
      ∃ st', signalLoop params nsources nsignals ndatasets observables rest i st = .ok st' ∧
        (∀ d ∈ datasets, (st'.all_plots d).length = observables.length ∧
          (st'.all_totals d).length = observables.length) ∧
        (∀ d ∈ datasets, ∀ j (hj : j < observables.length),
          (st'.all_totals d)[j]? = some (rest.foldl
            (stepTotal params nsources d observables[j].name j)
            ((st.all_totals d).getD j none))) ∧
        (∀ d, st'.all_totals_nd d = rest.foldl (stepNd params nsources d) (st.all_totals_nd d)) ∧
        st'.files = st.files ∧ st'.fpdfs = st.fpdfs := by
  intro rest
  induction rest with
  | nil =>
    intro i st _ hlen
    refine ⟨st, rfl, hlen, ?_, fun _ => rfl, rfl, rfl⟩
    intro d hdm j hj
    have hj' : j < (st.all_totals d).length := by rw [(hlen d hdm).2]; exact hj
    simp [List.getD_eq_getElem?_getD, List.getElem?_eq_getElem hj']
  | cons sig rest ih =>
    intro i st hok hlen
    have hsig := hok sig (List.mem_cons_self _ _)
    obtain ⟨st1, h, hsh, hml, hstep, e1, e2, e3, e4, e5, e6, e7, _⟩ :=
      signalStep_ok params nsources nsignals ndatasets observables datasets i sig st hsig hd hn
        hsz (hlen sig.dataset hsig.1).1 (hlen sig.dataset hsig.1).2
    have hlen1 : ∀ d ∈ datasets, (st1.all_plots d).length = observables.length ∧
        (st1.all_totals d).length = observables.length := by
      intro d hdm
      refine ⟨(e4 d).trans (hlen d hdm).1, ?_⟩
      by_cases hds : d = sig.dataset
      · rw [hds, e6]; exact (hlen sig.dataset hsig.1).2
      · rw [e5 d hds]; exact (hlen d hdm).2
    obtain ⟨st', hloop, f1, f2, f3, f4, f5⟩ :=
      ih (i + 1) st1 (fun s hs => hok s (List.mem_cons_of_mem _ hs)) hlen1
    refine ⟨st', by simp only [signalLoop, hstep, hloop], f1, ?_, ?_, f4.trans e2, f5.trans e3⟩
    · intro d hdm j hj
      rw [f2 d hdm j hj, List.foldl_cons]
      congr 2
      by_cases hds : d = sig.dataset
      · subst hds
        have hjm : j < (axisMarginals h).length := by rw [hml]; exact hj
        rw [List.getD_eq_getElem?_getD, e7 j hj]
        simp [accumCell, stepTotal, signalMarginal, hsh, List.getElem?_eq_getElem hjm,
          List.getElem?_eq_getElem hj]
      · have hne : ¬ sig.dataset = d := fun h => hds h.symm
        rw [e5 d hds]
        simp [stepTotal, hne]
    · intro d
      rw [f3 d, List.foldl_cons, e1]
      congr 1
      by_cases hds : d = sig.dataset
      · subst hds
        simp [stepNd, hsh, mapSet_same]
      · have hne : ¬ sig.dataset = d := fun h => hds h.symm
        simp [stepNd, hne, mapSet_other _ _ _ _ hds]

/-- State after the loop of lines 163-183. -/
theorem setupLoop_spec (env : Env) (live_time : ℚ) (observables : List Observable) :
    ∀ (datasets : List Nat) (st : FitState),
      (∀ d ∈ datasets,
        (setupLoop env live_time observables datasets st).all_plots d
            = makePlots env live_time observables ∧
        (setupLoop env live_time observables datasets st).all_totals d
            = List.replicate observables.length none) ∧
      (∀ d, d ∉ datasets →
        (setupLoop env live_time observables datasets st).all_plots d = st.all_plots d ∧
        (setupLoop env live_time observables datasets st).all_totals d = st.all_totals d) ∧
      (setupLoop env live_time observables datasets st).all_totals_nd = st.all_totals_nd := by
  intro datasets
  induction datasets with
  | nil =>
    intro st
    exact ⟨fun d hd => by simp at hd, fun _ _ => ⟨rfl, rfl⟩, rfl⟩
  | cons ds rest ih =>
    intro st
    obtain ⟨i1, i2, i3⟩ := ih
      { st with
        all_plots := mapSet st.all_plots ds (makePlots env live_time observables),
        all_totals := mapSet st.all_totals ds (List.replicate observables.length none) }
    refine ⟨?_, ?_, i3⟩
    · intro d hd
      by_cases hr : d ∈ rest
      · exact i1 d hr
      · have hds : d = ds := by
          rcases List.mem_cons.mp hd with h | h
          · exact h
          · exact absurd h hr
        subst hds
        have := i2 d hr
        simp only [mapSet_same] at this
        exact this
    · intro d hd
      have hne : d ≠ ds := fun h => hd (h ▸ List.mem_cons_self _ _)
      have hr : d ∉ rest := fun h => hd (List.mem_cons_of_mem _ h)
      have := i2 d hr
      simp only [mapSet_other _ _ _ _ hne] at this
      exact this

/-- A fold of `stepTotal` over the signals is a fold of `accumulate` over the
marginals of the dataset. -/
theorem foldl_stepTotal (params : List ℚ) (nsources d : Nat) (n : String) (j : Nat) :
    ∀ (signals : List Signal) (t : Option TH1),
      signals.foldl (stepTotal params nsources d n j) t
        = (datasetMarginals params nsources signals d j).foldl
            (fun t m => some (accumulate t d n m)) t := by
  intro signals
  induction signals with
  | nil => intro t; rfl
  | cons s rest ih =>
    intro t
    rw [List.foldl_cons, ih]
    unfold datasetMarginals stepTotal
    by_cases hs : s.dataset = d
    · cases hm : signalMarginal params nsources s j with
      | none => simp [List.filter_cons, hs, hm]
      | some m => simp [List.filter_cons, hs, hm]
    · simp [List.filter_cons, hs]

/-! ## Cells of the per-observable totals -/

theorem dim_one_iff (h : TH1) : h.dim = 1 ↔ h.contents = .d1 h.bins := by
  unfold TH1.dim TH1.bins
  cases h.contents <;> simp [Contents.dim]

theorem getD_zipWith_add (a b : List Val) (hab : a.length = b.length) (k : Nat) :
    (List.zipWith (· + ·) a b).getD k 0 = a.getD k 0 + b.getD k 0 := by
  simp only [List.getD_eq_getElem?_getD, List.getElem?_zipWith]
  by_cases hk : k < a.length
  · have hk' : k < b.length := hab ▸ hk
    simp [List.getElem?_eq_getElem hk, List.getElem?_eq_getElem hk']
  · have hk' : ¬ k < b.length := hab ▸ hk
    simp [List.getElem?_eq_none (Nat.le_of_not_lt hk), List.getElem?_eq_none (Nat.le_of_not_lt hk')]

/-- Cells of `t->Add(m)` for one-dimensional histograms of the same binning. -/
theorem bins_add (t m : TH1) (ht : t.dim = 1) (hm : m.dim = 1)
    (hlen : t.bins.length = m.bins.length) :
    (t.add m).dim = 1 ∧ (t.add m).bins.length = t.bins.length ∧
      ∀ k, (t.add m).bins.getD k 0 = t.bins.getD k 0 + m.bins.getD k 0 := by
  have h1 := (dim_one_iff t).mp ht
  have h2 := (dim_one_iff m).mp hm
  generalize t.bins = a at h1 hlen ⊢
  generalize m.bins = b at h2 hlen ⊢
  have hc : (t.add m).contents = .d1 (List.zipWith (· + ·) a b) := by
    simp only [TH1.add]
    rw [h1, h2]
    rfl
  have hb : (t.add m).bins = List.zipWith (· + ·) a b := by
    simp only [TH1.bins, hc]
  refine ⟨?_, ?_, ?_⟩
  · simp [TH1.dim, hc, Contents.dim]
  · rw [hb]; simp [hlen]
  · intro k
    rw [hb]
    exact getD_zipWith_add _ _ hlen k

theorem integral_of_dim_one (m : TH1) (hm : m.dim = 1) : m.integral = m.bins.sum := by
  unfold TH1.integral
  rw [(dim_one_iff m).mp hm]
  rfl

/-- Cells of a total after further marginals have been accumulated: the
marginals of integral `> 0` are added, the others are left out. -/
theorem foldl_accumulate_bins (d : Nat) (n : String) (nb : Nat) :
    ∀ (rest : List TH1) (t : TH1), t.dim = 1 → t.bins.length = nb →
      (∀ m ∈ rest, m.dim = 1 ∧ m.bins.length = nb) →
      ∃ t', rest.foldl (fun t m => some (accumulate t d n m)) (some t) = some t' ∧
        t'.dim = 1 ∧ t'.bins.length = nb ∧
        ∀ k, t'.bins.getD k 0 = t.bins.getD k 0 +
          ((rest.filter (fun m => decide (m.integral > 0))).map
            (fun m => m.bins.getD k 0)).sum := by
  intro rest
  induction rest with
  | nil => intro t h1 h2 _; exact ⟨t, rfl, h1, h2, fun k => by simp⟩
  | cons m rest ih =>
    intro t h1 h2 hall
    have hm := hall m (List.mem_cons_self _ _)
    have hrest : ∀ m' ∈ rest, m'.dim = 1 ∧ m'.bins.length = nb :=
      fun m' h => hall m' (List.mem_cons_of_mem _ h)
    rw [List.foldl_cons]
    by_cases hpos : m.integral > 0
    · obtain ⟨a1, a2, a3⟩ := bins_add t m h1 hm.1 (h2.trans hm.2.symm)
      obtain ⟨t', e1, e2, e3, e4⟩ := ih (t.add m) a1 (a2.trans h2) hrest
      refine ⟨t', ?_, e2, e3, ?_⟩
      · simp only [accumulate, hpos, if_true]
        exact e1
      · intro k
        rw [e4 k, a3 k]
        simp [List.filter_cons, hpos, add_assoc]
    · obtain ⟨t', e1, e2, e3, e4⟩ := ih t h1 h2 hrest
      refine ⟨t', ?_, e2, e3, ?_⟩
      · simp only [accumulate, hpos, if_false]
        exact e1
      · intro k
        rw [e4 k]
        simp [List.filter_cons, hpos]

theorem sum_eq_zero_of_nonneg : ∀ (b : List ℚ), (∀ x ∈ b, 0 ≤ x) → b.sum ≤ 0 →
    ∀ x ∈ b, x = 0 := by
  intro b
  induction b with
  | nil => intro _ _ x hx; simp at hx
  | cons y ys ih =>
    intro hnn hsum x hx
    have hy : 0 ≤ y := hnn y (List.mem_cons_self _ _)
    have hys : ∀ z ∈ ys, 0 ≤ z := fun z hz => hnn z (List.mem_cons_of_mem _ hz)
    have hs : 0 ≤ ys.sum := List.sum_nonneg hys
    rw [List.sum_cons] at hsum
    rcases List.mem_cons.mp hx with h | h
    · rw [h]; linarith
    · exact ih hys (by linarith) x h

/-- A one-dimensional histogram whose cells are non-negative rationals and
whose integral is not positive has no non-zero cell. -/
theorem cell_zero_of_skipped (m : TH1) (hm : m.dim = 1)
    (hnn' : ∀ x ∈ m.bins, x.nonneg = true)
    (hskip : ¬ m.integral > 0) (k : Nat) : m.bins.getD k 0 = 0 := by
  have hnn : ∀ x ∈ m.bins, ∃ q : ℚ, x = Val.fin q ∧ 0 ≤ q := by
    intro x hx
    have := hnn' x hx
    cases x with
    | fin q => exact ⟨q, rfl, by simpa [Val.nonneg] using this⟩
    | pinf => simp [Val.nonneg] at this
    | ninf => simp [Val.nonneg] at this
    | nan => simp [Val.nonneg] at this
  rw [integral_of_dim_one m hm] at hskip
  have hfin : ∀ v ∈ m.bins, v.isFin = true := by
    intro v hv
    obtain ⟨q, hq, _⟩ := hnn v hv
    rw [hq]
    rfl
  rw [sum_of_fin _ hfin] at hskip
  have hle : (m.bins.map Val.toRat).sum ≤ 0 := by
    by_contra hcon
    apply hskip
    show Val.lt (Val.fin 0) (Val.fin _) = true
    simp only [Val.lt, decide_eq_true_eq]
    exact not_le.mp hcon
  have hz := sum_eq_zero_of_nonneg (m.bins.map Val.toRat)
    (by
      intro x hx
      obtain ⟨v, hv, rfl⟩ := List.mem_map.mp hx
      obtain ⟨q, hq, hq0⟩ := hnn v hv
      rw [hq]
      exact hq0) hle
  rw [List.getD_eq_getElem?_getD]
  by_cases hk : k < m.bins.length
  · rw [List.getElem?_eq_getElem hk]
    obtain ⟨q, hq, _⟩ := hnn _ (List.getElem_mem hk)
    have := hz _ (List.mem_map.mpr ⟨_, List.getElem_mem hk, rfl⟩)
    rw [hq] at this ⊢
    simp only [Val.toRat] at this
    rw [this]
    rfl
  · rw [List.getElem?_eq_none (Nat.le_of_not_lt hk)]
    rfl

theorem sum_filter_of_zero (f : TH1 → Val) (p : TH1 → Bool) :
    ∀ (l : List TH1), (∀ m ∈ l, p m = false → f m = 0) →
      ((l.filter p).map f).sum = (l.map f).sum := by
  intro l
  induction l with
  | nil => intro _; rfl
  | cons m l ih =>
    intro h
    have hl := ih (fun m' hm' => h m' (List.mem_cons_of_mem _ hm'))
    cases hp : p m with
    | true => simp [List.filter_cons, hp, hl]
    | false => simp [List.filter_cons, hp, hl, h m (List.mem_cons_self _ _) hp]

theorem axisMarginals_dim (h m : TH1) (hm : m ∈ axisMarginals h) : m.dim = 1 := by
  unfold axisMarginals at hm
  cases hc : h.contents with
  | d1 b =>
    rw [hc] at hm
    simp only [List.mem_singleton] at hm
    subst hm
    simp [TH1.dim, hc, Contents.dim]
  | d2 b =>
    rw [hc] at hm
    simp only [List.mem_cons, List.mem_singleton, List.not_mem_nil, or_false] at hm
    rcases hm with h | h <;> subst h <;> rfl
  | d3 b =>
    rw [hc] at hm
    simp only [List.mem_cons, List.mem_singleton, List.not_mem_nil, or_false] at hm
    rcases hm with h | h | h <;> subst h <;> rfl
  | dn k b =>
    rw [hc] at hm
    simp at hm

theorem datasetMarginals_dim (params : List ℚ) (nsources : Nat) (signals : List Signal)
    (d j : Nat) (m : TH1) (hm : m ∈ datasetMarginals params nsources signals d j) :
    m.dim = 1 := by
  unfold datasetMarginals at hm
  obtain ⟨s, _, hs⟩ := List.mem_filterMap.mp hm
  unfold signalMarginal at hs
  cases hh : signalHist params nsources s with
  | none => rw [hh] at hs; exact Option.noConfusion hs
  | some h =>
    rw [hh] at hs
    exact axisMarginals_dim h m (List.getElem?_mem hs)

/-- C4 (as amended): when the dataset set is non-empty and no larger than the
signal list (of fewer than `2^32` signals) and every signal satisfies
`SignalOk`, the loop over the signals
completes, and for every dataset `d` of the set and every observable `j`:
with no signal of `d` the total `all_totals[d][j]` is null; otherwise, the
marginals of the signals of `d` sharing a binning of `nb` cells, the total has
`nb` cells and each cell is the sum of that cell over the marginal of the
first signal of `d` and the marginals of the later signals of `d` whose
integral is `> 0` (each once), in the arithmetic of `Val`; that is the sum
over all the signals of `d` whenever the cells of every later marginal are
non-negative rationals. -/
theorem totals_are_sums_of_kept_marginals (env : Env) (live_time : ℚ) (params : List ℚ)
    (nsources : Nat) (observables : List Observable) (datasets : List Nat)
    (signals : List Signal)
    (hd : 0 < datasets.length) (hn : datasets.length ≤ signals.length)
    (hsz : signals.length < 2 ^ 32)
    (hok : ∀ sig ∈ signals, SignalOk params nsources observables.length datasets sig) :
    ∃ st, signalLoop params nsources signals.length datasets.length observables signals 0
        (setupLoop env live_time observables datasets initState) = .ok st ∧
      ∀ d ∈ datasets, ∀ j, j < observables.length →
        (datasetMarginals params nsources signals d j = [] →
          (st.all_totals d)[j]? = some none) ∧
        (∀ (nb : Nat) (m : TH1) (rest : List TH1),
          datasetMarginals params nsources signals d j = m :: rest →
          (∀ m' ∈ m :: rest, m'.bins.length = nb) →
          ∃ t, (st.all_totals d)[j]? = some (some t) ∧ t.bins.length = nb ∧
            (∀ k, t.bins.getD k 0 = m.bins.getD k 0 +
              ((rest.filter (fun m' => decide (m'.integral > 0))).map
                (fun m' => m'.bins.getD k 0)).sum) ∧
            ((∀ m' ∈ rest, ∀ x ∈ m'.bins, x.nonneg = true) →
              ∀ k, t.bins.getD k 0 = ((m :: rest).map (fun m' => m'.bins.getD k 0)).sum)) := by
  obtain ⟨s1, s2, _⟩ := setupLoop_spec env live_time observables datasets initState
  obtain ⟨st, hloop, _, htot, _⟩ :=
    signalLoop_ok params nsources signals.length datasets.length observables datasets hd hn hsz
      signals 0 (setupLoop env live_time observables datasets initState) hok
      (fun d hdm => by
        rw [(s1 d hdm).1, (s1 d hdm).2]
        simp [makePlots])
  refine ⟨st, hloop, ?_⟩
  intro d hdm j hj
  have h0 : (setupLoop env live_time observables datasets initState).all_totals d
      = List.replicate observables.length none := (s1 d hdm).2
  have hcell := htot d hdm j hj
  rw [h0, foldl_stepTotal] at hcell
  have hnone : (List.replicate observables.length (none : Option TH1)).getD j none = none := by
    simp [List.getD_eq_getElem?_getD, List.getElem?_replicate, hj]
  rw [hnone] at hcell
  constructor
  · intro hempty
    rw [hcell, hempty]
    rfl
  · intro nb m rest hms hbins
    rw [hms, List.foldl_cons] at hcell
    have hdim : ∀ m' ∈ m :: rest, m'.dim = 1 := fun m' hm' =>
      datasetMarginals_dim params nsources signals d j m' (hms ▸ hm')
    have hfirst : (accumulate none d observables[j].name m).dim = 1 ∧
        (accumulate none d observables[j].name m).bins = m.bins := by
      constructor
      · exact hdim m (List.mem_cons_self _ _)
      · rfl
    obtain ⟨t, e1, _, e3, e4⟩ := foldl_accumulate_bins d observables[j].name nb rest
      (accumulate none d observables[j].name m) hfirst.1
      (by rw [hfirst.2]; exact hbins m (List.mem_cons_self _ _))
      (fun m' hm' => ⟨hdim m' (List.mem_cons_of_mem _ hm'),
        hbins m' (List.mem_cons_of_mem _ hm')⟩)
    rw [e1] at hcell
    refine ⟨t, hcell, e3, ?_, ?_⟩
    · intro k
      rw [e4 k, hfirst.2]
    · intro hnn k
      rw [e4 k, hfirst.2,
        sum_filter_of_zero (fun m' => m'.bins.getD k 0) (fun m' => decide (m'.integral > 0)) rest
          (fun m' hm' hp => cell_zero_of_skipped m' (hdim m' (List.mem_cons_of_mem _ hm'))
            (hnn m' hm') (by simpa using hp) k)]
      simp

/-- C4 (witness): two signals of dataset 0 with marginal cells `[25, 75]` each
give the total cells `50` and `150`. -/
theorem totals_are_sums_of_kept_marginals_witness :
    ∃ st t, signalLoop [2, 2] 2 2 1 [exObservable] exSignals2 0
        (setupLoop exEnv 1 [exObservable] [0] initState) = .ok st ∧
      (st.all_totals 0)[0]? = some (some t) ∧
      t.bins.getD 0 0 = 50 ∧ t.bins.getD 1 0 = 150 := by
  obtain ⟨st, h1, h2⟩ := totals_are_sums_of_kept_marginals exEnv 1 [2, 2] 2 [exObservable] [0]
    exSignals2 (by decide) (by decide) (by decide) (by decide!)
  obtain ⟨t, e1, _, _, e4⟩ := (h2 0 (by decide) 0 (by decide)).2 2
    (exHist [25, 75]) [exHist [25, 75]] (by decide!) (by decide!)
  refine ⟨st, t, h1, e1, ?_, ?_⟩
  · rw [e4 (by decide!) 0]; decide!
  · rw [e4 (by decide!) 1]; decide!

/-- C4 (counterexample): two signals of dataset 0 with best-fit estimates `2`
and `-2` have the marginals `[25, 75]` and `[-25, -75]`; the second has a
negative integral and is left out, so the total stays `[25, 75]` while the
bin-wise sum of the two marginals is `[0, 0]`. -/
theorem total_drops_negative_marginal :
    (totalAt (plot_fit exEnv [("a", ⟨2⟩), ("b", ⟨-2⟩)] 1 [⟨"a", 0⟩, ⟨"b", 1⟩] exSignals2 []
        [exObservable] [0] [] "out/") 0 0).map TH1.bins = some [25, 75] ∧
    (datasetMarginals [2, -2] 2 exSignals2 0 0).map TH1.bins = [[25, 75], [-25, -75]] ∧
    paramVector exEnv [("a", ⟨2⟩), ("b", ⟨-2⟩)] [⟨"a", 0⟩, ⟨"b", 1⟩] [] = .ok [2, -2] := by
  decide!

/-! ## Zero-integral model histograms -/

/-- An `add` of a histogram of non-zero integral draws it last, with the line
colour and style it came with, and adds its legend entry. -/
theorem add_drawn (p : SpectralPlot) (h0 : TH1) (objname title options : String)
    (hI : h0.integral ≠ 0) :
    ∃ p' hd, p.add (some h0) objname title options = .ok p' ∧
      p'.histograms.getLast? = some hd ∧
      hd.lineColor = h0.lineColor ∧ hd.lineStyle = h0.lineStyle := by
  unfold SpectralPlot.add
  simp only [styled_integral, hI, if_false]
  split
  · refine ⟨_, p.withRanges (p.styled h0 objname), rfl, by simp, ?_, ?_⟩
    · by_cases hy : p.ymin = -1 ∧ p.ymax = -1 <;>
        simp [SpectralPlot.withRanges, SpectralPlot.styled, TH1.clone, hy]
    · by_cases hy : p.ymin = -1 ∧ p.ymax = -1 <;>
        simp [SpectralPlot.withRanges, SpectralPlot.styled, TH1.clone, hy]
  · exact ⟨_, p.styled h0 objname, rfl, by simp, rfl, rfl⟩

/-- What a pass of the loop of lines 271-287 leaves in the overlay of
observable `k`: the overlay after `add` of the marginal carrying the colour
and line style of the signal; the legend gains the signal's entry, and a
marginal of non-zero integral is drawn last with that colour and style. -/
theorem plotCell_some (sig : Signal) (color style : Int) (ms : List TH1)
    (old : List SpectralPlot) (k : Nat) (h1 : k < ms.length) (h2 : k < old.length) :
    ∃ m pl pl', ms[k]? = some m ∧ old[k]? = some pl ∧
      pl.add (some { m with lineColor := color, lineStyle := style })
        sig.name sig.title "hist" = .ok pl' ∧
      plotCell sig color style ms old k = some pl' ∧
      pl'.legend = pl.legend ++ [("__" ++ sig.name, sig.title)] ∧
      (m.integral ≠ 0 → ∃ hd, pl'.histograms.getLast? = some hd ∧
        hd.lineColor = color ∧ hd.lineStyle = style) := by
  obtain ⟨pl', hadd, hleg⟩ : ∃ pl', old[k].add
      (some { ms[k] with lineColor := color, lineStyle := style }) sig.name sig.title "hist"
        = .ok pl' ∧ pl'.legend = old[k].legend ++ [("__" ++ sig.name, sig.title)] :=
    ⟨_, add_some old[k]
      ⟨{ ms[k] with lineColor := color, lineStyle := style }, sig.name, sig.title, "hist"⟩,
      rfl⟩
  refine ⟨ms[k], old[k], pl', List.getElem?_eq_getElem h1, List.getElem?_eq_getElem h2, hadd,
    ?_, hleg, ?_⟩
  · simp only [plotCell, List.getElem?_eq_getElem h1, List.getElem?_eq_getElem h2, hadd]
  · intro hI
    obtain ⟨p2, hd, e1, e2, e3, e4⟩ := add_drawn old[k]
      { ms[k] with lineColor := color, lineStyle := style } sig.name sig.title "hist" hI
    rw [hadd] at e1
    have : pl' = p2 := Except.ok.inj e1
    subst this
    exact ⟨hd, e2, e3, e4⟩

/-- C7 (as amended): the rescale step has no zero-integral check.  For a
signal that satisfies `SignalOk` and whose model histogram has integral zero,
the scale factor is the unchecked quotient `nexp / 0`, an infinity or a NaN;
the step completes, the rescaled histogram is cloned or added into
`all_totals_nd` of its dataset, and each of its marginals is handed to the
overlay of its observable by `add` and goes through the accumulation of lines
277-286 into the per-observable total, as for any other signal. -/
theorem zero_integral_rescale_not_fatal (params : List ℚ) (nsources nsignals ndatasets : Nat)
    (observables : List Observable) (datasets : List Nat) (i : Nat) (sig : Signal)
    (st : FitState)
    (hz : (sig.histogram.eval params nsources).2.integral = 0)
    (hok : SignalOk params nsources observables.length datasets sig)
    (hd : 0 < ndatasets) (hn : ndatasets ≤ nsignals) (hsz : nsignals < 2 ^ 32)
    (hp : (st.all_plots sig.dataset).length = observables.length)
    (ht : (st.all_totals sig.dataset).length = observables.length) :
    ∃ st' h p, params[sig.source.index]? = some p ∧
      h = (sig.histogram.eval params nsources).2.scale
        (expectedCount sig (sig.histogram.eval params nsources).1 p / 0) ∧
      (expectedCount sig (sig.histogram.eval params nsources).1 p / 0).isFin = false ∧
      scaledHist sig params (sig.histogram.eval params nsources).1
        (sig.histogram.eval params nsources).2 = .ok h ∧
      signalStep params nsources nsignals ndatasets observables i sig st = .ok st' ∧
      st'.all_totals_nd sig.dataset
        = some (accumulateNd (st.all_totals_nd sig.dataset) sig.dataset h) ∧
      (∀ k, k < observables.length → ∃ m o pl pl',
        (axisMarginals h)[k]? = some m ∧ observables[k]? = some o ∧
        (st.all_plots sig.dataset)[k]? = some pl ∧
        pl.add (some { m with
            lineColor := colors.getD (i % (nsignals / ndatasets) % 6) 0,
            lineStyle := styles.getD (i % (nsignals / ndatasets) % 6) 0 })
          sig.name sig.title "hist" = .ok pl' ∧
        (st'.all_plots sig.dataset)[k]? = some pl' ∧
        (st'.all_totals sig.dataset)[k]?
          = some (some (accumulate ((st.all_totals sig.dataset).getD k none)
              sig.dataset o.name m))) := by
  obtain ⟨st', h, hsh, hml, hstep, e1, _, _, _, _, _, e7, e8⟩ :=
    signalStep_ok params nsources nsignals ndatasets observables datasets i sig st hok hd hn hsz
      hp ht
  have hidx : sig.source.index < params.length := hok.2.1
  have hpe : params[sig.source.index]? = some params[sig.source.index] :=
    List.getElem?_eq_getElem hidx
  have hs : scaledHist sig params (sig.histogram.eval params nsources).1
      (sig.histogram.eval params nsources).2 = .ok h := by
    unfold signalHist at hsh
    split at hsh
    · rename_i h' heq
      rw [heq]
      exact congrArg Except.ok (Option.some.inj hsh)
    · exact Option.noConfusion hsh
  refine ⟨st', h, params[sig.source.index], hpe, ?_, div_zero_not_fin _, hs, hstep, ?_, ?_⟩
  · have := hs
    simp only [scaledHist, readAt, hpe, hz] at this
    exact (Except.ok.inj this).symm
  · rw [e1, mapSet_same]
  · intro k hk
    have hkm : k < (axisMarginals h).length := by rw [hml]; exact hk
    have hkp : k < (st.all_plots sig.dataset).length := by rw [hp]; exact hk
    obtain ⟨m, pl, pl', c1, c2, c3, c4, _, _⟩ := plotCell_some sig
      (colors.getD (i % (nsignals / ndatasets) % 6) 0)
      (styles.getD (i % (nsignals / ndatasets) % 6) 0)
      (axisMarginals h) (st.all_plots sig.dataset) k hkm hkp
    refine ⟨m, observables[k], pl, pl', c1, List.getElem?_eq_getElem hk, c2, c3, ?_, ?_⟩
    · rw [e8 k hk, c4]
    · rw [e7 k hk]
      simp [accumCell, c1, List.getElem?_eq_getElem hk]

/-- C7 (witness): a signal whose model histogram has cells `[0, 0]`. -/
theorem zero_integral_rescale_not_fatal_witness :
    ∃ st', signalStep [2] 1 1 1 [exObservable] 0 (exSignal 0 ⟨"a", 0⟩ 500 (exHist [0, 0]))
        (setupLoop exEnv 1 [exObservable] [0] initState) = .ok st' ∧
      (st'.all_totals_nd 0).isSome = true := by
  obtain ⟨st', h, p, _, _, _, _, h4, h5, _⟩ :=
    zero_integral_rescale_not_fatal [2] 1 1 1 [exObservable] [0] 0
      (exSignal 0 ⟨"a", 0⟩ 500 (exHist [0, 0]))
      (setupLoop exEnv 1 [exObservable] [0] initState)
      (by decide!) (by decide!) (by decide) (by decide) (by decide) (by decide!) (by decide!)
  refine ⟨st', h4, ?_⟩
  have h5' : st'.all_totals_nd 0 = some (accumulateNd
      ((setupLoop exEnv 1 [exObservable] [0] initState).all_totals_nd 0) 0 h) := h5
  rw [h5']
  rfl

/-- C7 (counterexample): for a signal whose model histogram has cells `[0, 0]`
and expected count `100`, the scale factor is `100 / 0`, an infinity, and the
run of `plot_fit` completes without any fault: the rescaled histogram, with
NaN cells, is the full-dimensional total and the per-observable total of
dataset 0, its marginal was handed to the overlay and drawn (a NaN integral is
not `== 0`), followed by the total; the empty data histogram has a legend
entry only. -/
theorem zero_integral_histogram_is_accumulated :
    (exHist [0, 0]).integral = 0 ∧
    expectedCount (exSignal 0 ⟨"a", 0⟩ 500 (exHist [0, 0])) 500 2 / 0 = Val.pinf ∧
    faultOf (plot_fit exEnv [("a", ⟨2⟩)] 1 [⟨"a", 0⟩]
      [exSignal 0 ⟨"a", 0⟩ 500 (exHist [0, 0])] [] [exObservable] [0] [] "out/") = none ∧
    (ndTotalAt (plot_fit exEnv [("a", ⟨2⟩)] 1 [⟨"a", 0⟩]
      [exSignal 0 ⟨"a", 0⟩ 500 (exHist [0, 0])] [] [exObservable] [0] [] "out/") 0).map TH1.bins
      = some [Val.nan, Val.nan] ∧
    (totalAt (plot_fit exEnv [("a", ⟨2⟩)] 1 [⟨"a", 0⟩]
      [exSignal 0 ⟨"a", 0⟩ 500 (exHist [0, 0])] [] [exObservable] [0] [] "out/") 0 0).map TH1.bins
      = some [Val.nan, Val.nan] ∧
    legendAt (plot_fit exEnv [("a", ⟨2⟩)] 1 [⟨"a", 0⟩]
      [exSignal 0 ⟨"a", 0⟩ 500 (exHist [0, 0])] [] [exObservable] [0] [] "out/") 0 0
      = [("__s", "S"), ("__fit", "Fit"), ("__data", "Data")] ∧
    drawnStylesAt (plot_fit exEnv [("a", ⟨2⟩)] 1 [⟨"a", 0⟩]
      [exSignal 0 ⟨"a", 0⟩ 500 (exHist [0, 0])] [] [exObservable] [0] [] "out/") 0 0
      = [(kRed, 1), (kMagenta, 1)] := by
  decide!

/-! ## Colour and line style of a signal -/

/-- C9 (as amended): for the signal at list position `i`, the dataset set
non-empty and no larger than the signal list (of fewer than `2^32` signals),
the palette index is defined, equals `(i mod (|signals| div |datasets|)) mod 6`
and lies in `0..5`, the range of the two six-entry tables.  When the signal
satisfies `SignalOk`, its pass of the loop of lines 220-288 completes and, for
every observable, hands to the overlay by `add` the signal's marginal carrying
the colour `colors[index]` and the line style `styles[index]`; a marginal of
non-zero integral is drawn last on the overlay with that colour and style.
When the signals are laid out in consecutive runs of equal length, one run per
dataset, the index is the position of the signal inside its own dataset
modulo 6. -/
theorem palette_of_signal (params : List ℚ) (nsources : Nat) (observables : List Observable)
    (datasets : List Nat) (signals : List Signal) (i : Nat) (hi : i < signals.length)
    (st : FitState)
    (hd : 0 < datasets.length) (hn : datasets.length ≤ signals.length)
    (hsz : signals.length < 2 ^ 32) :
    paletteIndex signals.length datasets.length i
        = .ok (i % (signals.length / datasets.length) % 6) ∧
      i % (signals.length / datasets.length) % 6 < 6 ∧
      (colors.length = 6 ∧ styles.length = 6) ∧
      (SignalOk params nsources observables.length datasets signals[i] →
        (st.all_plots signals[i].dataset).length = observables.length →
        (st.all_totals signals[i].dataset).length = observables.length →
        ∃ st' h, signalHist params nsources signals[i] = some h ∧
          signalStep params nsources signals.length datasets.length observables i signals[i] st
            = .ok st' ∧
          ∀ k, k < observables.length → ∃ m pl pl',
            (axisMarginals h)[k]? = some m ∧
            (st.all_plots signals[i].dataset)[k]? = some pl ∧
            pl.add (some { m with
                lineColor := colors.getD (i % (signals.length / datasets.length) % 6) 0,
                lineStyle := styles.getD (i % (signals.length / datasets.length) % 6) 0 })
              signals[i].name signals[i].title "hist" = .ok pl' ∧
            (st'.all_plots signals[i].dataset)[k]? = some pl' ∧
            (m.integral ≠ 0 → ∃ hd, pl'.histograms.getLast? = some hd ∧
              hd.lineColor = colors.getD (i % (signals.length / datasets.length) % 6) 0 ∧
              hd.lineStyle = styles.getD (i % (signals.length / datasets.length) % 6) 0)) ∧
      (∀ ns, datasets.Nodup → signals.map (fun s => s.dataset) = blocks ns datasets →
        i % (signals.length / datasets.length) % 6
          = ordinalInDataset (signals.map (fun s => s.dataset)) i % 6) := by
  refine ⟨paletteIndex_eq _ _ i hd hn hsz, Nat.mod_lt _ (by decide), ⟨rfl, rfl⟩, ?_, ?_⟩
  · intro hok hp ht
    obtain ⟨st', h, hsh, hml, hstep, _, _, _, _, _, _, _, e8⟩ :=
      signalStep_ok params nsources signals.length datasets.length observables datasets i
        signals[i] st hok hd hn hsz hp ht
    refine ⟨st', h, hsh, hstep, ?_⟩
    intro k hk
    have hkm : k < (axisMarginals h).length := by rw [hml]; exact hk
    have hkp : k < (st.all_plots signals[i].dataset).length := by rw [hp]; exact hk
    obtain ⟨m, pl, pl', c1, c2, c3, c4, _, c6⟩ := plotCell_some signals[i]
      (colors.getD (i % (signals.length / datasets.length) % 6) 0)
      (styles.getD (i % (signals.length / datasets.length) % 6) 0)
      (axisMarginals h) (st.all_plots signals[i].dataset) k hkm hkp
    exact ⟨m, pl, pl', c1, c2, c3, by rw [e8 k hk, c4], c6⟩
  · intro ns hnd hb
    have hlen : (signals.map (fun s => s.dataset)).length = signals.length := List.length_map _ _
    have hi' : i < (blocks ns datasets).length := by rw [← hb, hlen]; exact hi
    have hl2 : signals.length = ns * datasets.length := by
      rw [← hlen, hb, length_blocks]
    rw [hb, ordinal_blocks ns datasets hnd i hi', hl2, Nat.mul_div_cancel _ hd]

/-- C9 (witness): four signals in two runs of two, two datasets, signal 3. -/
theorem palette_of_signal_witness :
    paletteIndex 4 2 3 = .ok 1 ∧ ordinalInDataset [0, 0, 1, 1] 3 % 6 = 1 ∧
    ∃ st', signalStep [2] 1 4 2 [exObservable] 3 (exSignal 1 ⟨"a", 0⟩ 500 (exHist [1, 3]))
      (setupLoop exEnv 1 [exObservable] [0, 1] initState) = .ok st' := by
  have hw := palette_of_signal [2] 1 [exObservable] [0, 1] (exSignalsOf [0, 0, 1, 1]) 3
    (by decide) (setupLoop exEnv 1 [exObservable] [0, 1] initState)
    (by decide) (by decide) (by decide)
  refine ⟨hw.1, ?_, ?_⟩
  · exact (hw.2.2.2.2 2 (by decide) (by decide)).symm
  · obtain ⟨st', _, _, hstep, _⟩ := hw.2.2.2.1 (by decide!) (by decide!) (by decide!)
    exact ⟨st', hstep⟩

/-- C9 (counterexample): with signals of datasets `[0, 0, 0, 1]` and two
datasets, the third signal of dataset 0 (position 2 inside its dataset) is
drawn with the palette entry 0, `(kRed, 1)`, not with the entry 2,
`(kBlack, 1)`; and with one signal and two datasets the index computation
divides by zero. -/
theorem palette_index_not_dataset_ordinal :
    drawnStylesAt (signalLoop [2] 1 4 2 [exObservable] (exSignalsOf [0, 0, 0, 1]) 0
        (setupLoop exEnv 1 [exObservable] [0, 1] initState)) 0 0
      = [(kRed, 1), (kRed, 2), (kRed, 1)] ∧
    ordinalInDataset [0, 0, 0, 1] 2 % 6 = 2 ∧
    (colors.getD 2 0, styles.getD 2 0) = (kBlack, 1) ∧
    paletteIndex [0].length [0, 1].length 0 = .error .divByZero ∧
    faultOf (signalLoop [2] 1 1 2 [exObservable] (exSignalsOf [0]) 0
        (setupLoop exEnv 1 [exObservable] [0, 1] initState)) = some .divByZero := by
  decide!

/-! ## The final stage on a dataset without drawn histograms -/

/-- C8 (failing inputs): with datasets `{0, 1}` and both signals in dataset 0,
the loop over the signals completes and leaves the total of dataset 1 null,
and the final stage then indexes the empty histogram list of the overlay of
dataset 1; with a single dataset whose only signal has zero accepted events
(a marginal of integral zero) the final stage indexes the empty histogram list
of that dataset's overlay.  A dataset without data records is handled. -/
theorem final_stage_indexes_empty_histogram_list :
    faultOf (signalLoop [2, 2] 2 2 2 [exObservable] exSignals2 0
        (setupLoop exEnv 1 [exObservable] [0, 1] initState)) = none ∧
    totalAt (signalLoop [2, 2] 2 2 2 [exObservable] exSignals2 0
        (setupLoop exEnv 1 [exObservable] [0, 1] initState)) 1 0 = none ∧
    faultOf (plot_fit exEnv [("a", ⟨2⟩), ("b", ⟨2⟩)] 1 [⟨"a", 0⟩, ⟨"b", 1⟩] exSignals2 []
        [exObservable] [0, 1] [] "out/") = some .outOfRange ∧
    faultOf (plot_fit exEnv [("a", ⟨2⟩)] 1 [⟨"a", 0⟩] [exSignal 0 ⟨"a", 0⟩ 0 (exHist [1, 3])] []
        [exObservable] [0] [] "out/") = some .outOfRange ∧
    faultOf (plot_fit exEnv [("a", ⟨2⟩)] 1 [⟨"a", 0⟩] [exSignal 0 ⟨"a", 0⟩ 500 (exHist [1, 3])] []
        [exObservable] [0] [] "out/") = none := by
  decide!

end Sxmc
